import Mathlib

/-!
Shallow embedding of the bilibili-rag content-acquisition and sync pipeline
(`app/routers/knowledge.py`, `app/services/content_fetcher.py`,
`app/services/asr.py`), together with theorems settling the frozen claims.

Python conventions carried over:
* `Option` models Python `None`-able values; "truthiness" of strings /
  numbers / options is made explicit via `truthyStr` / `truthyNat`.
* Exceptions that the source catches locally are modelled by the
  environment choosing the `none` / failure branch of the corresponding
  call; functions that never let exceptions escape are total here.
* `pyStrip` models Python `str.strip()` (structurally, over the
  character list), `String.length` models `len()` on text (both count
  characters).
-/

namespace BilibiliRag

/-- Python `str.strip()`: drop whitespace from both ends. -/
def pyStrip (s : String) : String :=
  String.mk
    (((s.data.dropWhile Char.isWhitespace).reverse.dropWhile
        Char.isWhitespace).reverse)

/-- Python truthiness of an optional string (`None` and `""` are falsy). -/
def truthyStr : Option String → Bool
  | none => false
  | some s => s ≠ ""

/-- Python truthiness of an optional integer (`None` and `0` are falsy). -/
def truthyNat : Option Nat → Bool
  | none => false
  | some n => n ≠ 0

/-- `x or d` for an optional string, as in Python (`""` falls through). -/
def strOr (o : Option String) (d : String) : String :=
  match o with
  | none => d
  | some s => if s = "" then d else s

/-- `ContentSource` enum from `app/models.py`. -/
inductive ContentSource
  | ai_summary
  | subtitle
  | basic_info
  | asr
deriving DecidableEq, Repr

/-- `.value` of the enum member (the `str` payload). -/
def ContentSource.value : ContentSource → String
  | .ai_summary => "ai_summary"
  | .subtitle => "subtitle"
  | .basic_info => "basic_info"
  | .asr => "asr"

/-- Pydantic `VideoContent` from `app/models.py`.  The outline payload is an
opaque list of entries; its structure is irrelevant to every claim. -/
structure VideoContent where
  bvid : String
  title : String
  content : String
  source : ContentSource
  outline : Option (List String) := none
deriving DecidableEq, Repr

/-! ## Content fetcher (`app/services/content_fetcher.py`) -/

/-- Result of `BilibiliService.get_video_info` as consumed by
`fetch_content`: the `cid`, `title` and `desc` fields of the info dict. -/
structure VideoInfoR where
  cid : Option Nat := none
  title : Option String := none
  desc : String := ""
deriving DecidableEq, Repr

/-- Environment of one `fetch_content` call: the results of the external
calls it makes.  `video_info = none` models `get_video_info` raising;
`asrRaises = true` models an exception anywhere inside `_try_asr`'s `try`
block (all of which are caught there). -/
structure FetchEnv where
  video_info : Option VideoInfoR := none
  audio_url : Option String := none
  local_asr_text : Option String := none
  asrRaises : Bool := false

/-- `ContentFetcher._try_asr`: resolve the audio url, run the local-audio
recognition path, and discard any transcript shorter than 50 characters.
Any exception in the body is caught and yields `None`. -/
def tryAsr (env : FetchEnv) : Option String :=
  if env.asrRaises then none
  else if truthyStr env.audio_url then
    match env.local_asr_text with
    | none => none
    | some t => if t.length < 50 then none else some t
  else none

/-- Does `fetch_content` need to resolve video metadata first?
(`if not cid or not title` in the source.) -/
def needInfo (cid : Option Nat) (title : Option String) : Bool :=
  ¬ truthyNat cid ∨ ¬ truthyStr title

/-- Shared tail of `fetch_content`: try ASR, otherwise fall back to the
basic-info text, re-fetching the metadata if it was skipped. -/
def fetchRest (env : FetchEnv) (bvid : String) (title : String)
    (video_info : Option VideoInfoR) : VideoContent :=
  let description := match video_info with
    | some vi => vi.desc
    | none => ""
  let asr_text := tryAsr env
  if truthyStr asr_text then
    ⟨bvid, title, asr_text.getD "", .asr, none⟩
  else
    let video_info2 := match video_info with
      | some vi => some vi
      | none => env.video_info
    let description2 := match video_info2 with
      | some vi =>
          if description = "" then
            (if vi.desc = "" then description else vi.desc)
          else description
      | none => description
    let basic := "视频标题：" ++ title ++
      (if description2 ≠ "" then "\n\n视频简介：" ++ description2 else "")
    ⟨bvid, title, basic, .basic_info, none⟩

/-- `ContentFetcher.fetch_content`: resolve metadata when `cid`/`title` are
missing (a failure there returns the error-placeholder basic result), then
attempt ASR and fall back to the basic-info description. -/
def fetch_content (env : FetchEnv) (bvid : String) (cid : Option Nat)
    (title : Option String) : VideoContent :=
  if needInfo cid title then
    match env.video_info with
    | none =>
        ⟨bvid, strOr title "未知标题", "无法获取视频信息", .basic_info, none⟩
    | some vi =>
        let title2 := if truthyStr title then strOr title "未知标题"
          else vi.title.getD "未知标题"
        fetchRest env bvid title2 (some vi)
  else
    fetchRest env bvid (strOr title "未知标题") none

/-! ## Database and vector-store state
(`app/models.py`, vector side of `app/services/rag.py`) -/

/-- `video_cache` row.  `cid` is never written by the sync path. -/
structure VideoCache where
  bvid : String
  cid : Option Nat := none
  title : String := ""
  description : Option String := none
  owner_name : Option String := none
  owner_mid : Option Nat := none
  content : Option String := none
  content_source : Option String := none
  outline_json : Option (List String) := none
  duration : Option Nat := none
  pic_url : Option String := none
  is_processed : Bool := false
deriving DecidableEq, Repr

/-- `favorite_folders` row.  `last_sync_at` is an abstract timestamp. -/
structure FavoriteFolder where
  id : Nat
  session_id : String
  media_id : Nat
  title : String := ""
  media_count : Nat := 0
  is_selected : Bool := true
  last_sync_at : Option Nat := none
deriving DecidableEq, Repr

/-- `favorite_videos` row; `folder_id` references `FavoriteFolder.id`. -/
structure FavoriteVideo where
  folder_id : Nat
  bvid : String
  is_selected : Bool := true
deriving DecidableEq, Repr

/-- Combined durable state: the three tables plus the vector store.  The
store is a bag of `(bvid, chunk count)` batches, one batch per successful
`add_video_content` call. -/
structure DBState where
  folders : List FavoriteFolder := []
  favorite_videos : List FavoriteVideo := []
  video_cache : List VideoCache := []
  chunks : List (String × Nat) := []
  next_folder_id : Nat := 1
deriving DecidableEq, Repr

/-- Number of indexed chunks the store holds for a video. -/
def chunkCount (s : DBState) (bvid : String) : Nat :=
  (s.chunks.filter (fun p => p.1 == bvid)).foldr (fun p acc => p.2 + acc) 0

/-- `RAGService.delete_video`: drop every chunk batch of the video;
idempotent when none exist. -/
def ragDeleteVideo (chunks : List (String × Nat)) (bvid : String) :
    List (String × Nat) :=
  chunks.filter (fun p => p.1 != bvid)

/-! ## Sync engine (`app/routers/knowledge.py`) -/

/-- One entry of the remote member list.  `cid` models the resolved
`ugc.first_cid or cid or id` chain of `_extract_video_info`. -/
structure Media where
  bvid : Option String := none
  title : Option String := none
  cid : Option Nat := none
  attr : Nat := 0
  intro : Option String := none
  cover : Option String := none
  duration : Option Nat := none
  owner_name : Option String := none
  owner_mid : Option Nat := none
deriving DecidableEq, Repr

/-- The `info` block of `get_favorite_content` (collection summary). -/
structure FolderInfo where
  title : Option String := none
  media_count : Option Nat := none
deriving DecidableEq, Repr

/-- The per-video metadata kept in `video_map`. -/
structure Meta where
  title : String := ""
  cid : Option Nat := none
  intro : Option String := none
  cover : Option String := none
  duration : Option Nat := none
  owner_name : Option String := none
  owner_mid : Option Nat := none
deriving DecidableEq, Repr

/-- Environment of one `_sync_folder` run: the remote listing, the content
fetcher (a dependency here, keyed by bvid), the text splitter's chunk
count, and which `add_video_content` calls raise (`addOk b = false`; the
exception is caught by the per-video handler). `info = none` models
`get_favorite_content` raising, which leaves `info = {}`. -/
structure SyncEnv where
  info : Option FolderInfo := none
  videos : List Media := []
  fetch : String → VideoContent
  chunksOf : VideoContent → Nat
  addOk : String → Bool := fun _ => true
  now : Nat := 0

/-- `source_priority` table from `_sync_folder` (unknown sources rank 0). -/
def source_priority (s : String) : Nat :=
  if s = "basic_info" then 1
  else if s = "ai_summary" then 2
  else if s = "subtitle" then 3
  else if s = "asr" then 4
  else 0

/-- `_is_better_source`: strictly higher priority than the old source. -/
def isBetterSource (new_source : String) (old_source : Option String) : Bool :=
  source_priority (old_source.getD "") < source_priority new_source

/-- `_should_refresh_cache`: refresh when the cache row is missing, its
text is under 50 characters, or its source is at/below `basic_info`. -/
def shouldRefreshCache : Option VideoCache → Bool
  | none => true
  | some c =>
    let text := pyStrip (c.content.getD "")
    if text.length < 50 then true
    else match c.content_source with
      | none => true
      | some src => src = "" || src = "basic_info"

/-- `_is_asr_cache_usable`: an `asr`-sourced entry with ≥ 50 chars. -/
def isAsrCacheUsable : Option VideoCache → Bool
  | none => false
  | some c =>
    if c.content_source ≠ some "asr" then false
    else 50 ≤ (pyStrip (c.content.getD "")).length

/-- Python-dict update on an association list: an existing key keeps its
position and gets the new value, a new key is appended. -/
def assocUpdate (l : List (String × Meta)) (k : String) (v : Meta) :
    List (String × Meta) :=
  if l.any (fun p => p.1 == k) then
    l.map (fun p => if p.1 == k then (k, v) else p)
  else l ++ [(k, v)]

/-- The `video_map` construction loop of `_sync_folder`: skip entries
without a `bvid`, excluded ones, and invalid/retracted ones
(`attr == 9` or a deletion-placeholder title). -/
def buildVideoMap (exclude : List String) (videos : List Media) :
    List (String × Meta) :=
  videos.foldl (fun vm m =>
    let bvid := m.bvid.getD ""
    if bvid = "" then vm
    else if exclude.contains bvid then vm
    else
      let title := match m.title with
        | some t => t
        | none => bvid
      if m.attr = 9 || title = "已失效视频" || title = "已删除视频" then vm
      else assocUpdate vm bvid
        ⟨title, m.cid, m.intro, m.cover, m.duration, m.owner_name, m.owner_mid⟩)
    []

/-- Lookup in `video_map` (targets are always present). -/
def metaOf (vm : List (String × Meta)) (b : String) : Meta :=
  ((vm.find? (fun p => p.1 == b)).map (·.2)).getD {}

/-- First folder row matching the session and the remote collection id. -/
def findFolder (s : DBState) (session_id : String) (media_id : Nat) :
    Option FavoriteFolder :=
  s.folders.find? (fun f => f.session_id == session_id && f.media_id == media_id)

/-- `_get_or_create_folder`: create the row on first sight, otherwise
update its title (when truthy) and member count. -/
def getOrCreateFolder (s : DBState) (session_id : String) (media_id : Nat)
    (title : Option String) (media_count : Nat) : FavoriteFolder × DBState :=
  match findFolder s session_id media_id with
  | none =>
    let f : FavoriteFolder :=
      { id := s.next_folder_id, session_id, media_id,
        title := title.getD "", media_count, is_selected := true }
    (f, { s with folders := s.folders ++ [f],
                 next_folder_id := s.next_folder_id + 1 })
  | some f =>
    let f' := { f with
      title := if truthyStr title then title.getD "" else f.title,
      media_count }
    (f', { s with folders :=
        s.folders.map (fun g => if g.id == f.id then f' else g) })

/-- `video_cache` lookup by bvid (unique key). -/
def findCache (s : DBState) (bvid : String) : Option VideoCache :=
  s.video_cache.find? (fun c => c.bvid == bvid)

/-- Update the (unique) cache row of a bvid in place. -/
def updCache (bvid : String) (g : VideoCache → VideoCache) (s : DBState) :
    DBState :=
  { s with video_cache := s.video_cache.map (fun c =>
      if c.bvid == bvid then g c else c) }

/-- `_upsert_video_cache`: create the row with the listing metadata, or
update the metadata fields that are present; never touches content. -/
def upsertVideoCache (s : DBState) (bvid : String) (meta : Meta) : DBState :=
  match findCache s bvid with
  | none =>
    let c : VideoCache :=
      { bvid, title := if meta.title = "" then bvid else meta.title,
        description := meta.intro, owner_name := meta.owner_name,
        owner_mid := meta.owner_mid, duration := meta.duration,
        pic_url := meta.cover, is_processed := false }
    { s with video_cache := s.video_cache ++ [c] }
  | some _ =>
    updCache bvid (fun c =>
      { c with
        title := if meta.title = "" then c.title else meta.title,
        description := if meta.intro.isSome then meta.intro else c.description,
        owner_name := if meta.owner_name.isSome then meta.owner_name else c.owner_name,
        owner_mid := if meta.owner_mid.isSome then meta.owner_mid else c.owner_mid,
        duration := if meta.duration.isSome then meta.duration else c.duration,
        pic_url := if meta.cover.isSome then meta.cover else c.pic_url }) s

/-- Number of membership rows for a video across all folders
(the `global_count` query of `_sync_folder`). -/
def globalCount (s : DBState) (bvid : String) : Nat :=
  (s.favorite_videos.filter (fun r => r.bvid == bvid)).length

/-- The bvids of a folder's membership rows, in row order. -/
def folderBvids (s : DBState) (fid : Nat) : List String :=
  (s.favorite_videos.filter (fun r => r.folder_id == fid)).map (·.bvid)

/-- Previously stored membership, as a deduplicated list (a Python set). -/
def existingBvids (s : DBState) (fid : Nat) : List String :=
  (folderBvids s fid).dedup

/-- Adopt a fetch result into the cache row (`cache.content = ...` etc.). -/
def writeCacheContent (s : DBState) (bvid : String) (v : VideoContent) :
    DBState :=
  updCache bvid (fun c =>
    { c with content := some v.content,
             content_source := some v.source.value,
             outline_json := v.outline, is_processed := true }) s

/-- `cache.is_processed = True` alone (ASR-cache rebuild branch). -/
def markProcessed (s : DBState) (bvid : String) : DBState :=
  updCache bvid (fun c => { c with is_processed := true }) s

/-- The delete-then-add re-index step (`rag.delete_video` then
`rag.add_video_content`); when the add raises, the per-video handler has
already deleted the stale chunks. -/
def ragReindex (env : SyncEnv) (s : DBState) (bvid : String)
    (v : VideoContent) : DBState :=
  let deleted := ragDeleteVideo s.chunks bvid
  if env.addOk bvid then
    { s with chunks := deleted ++ [(bvid, env.chunksOf v)] }
  else
    { s with chunks := deleted }

/-- Does a membership row for `(fid, bvid)` occur in a row list? -/
def rowsHas (l : List FavoriteVideo) (fid : Nat) (bvid : String) : Bool :=
  l.any (fun r => r.folder_id == fid && r.bvid == bvid)

/-- Does a membership row for `(fid, bvid)` exist? -/
def hasRow (s : DBState) (fid : Nat) (bvid : String) : Bool :=
  rowsHas s.favorite_videos fid bvid

/-- Write the membership row unless it already exists. -/
def addMembership (s : DBState) (fid : Nat) (bvid : String) : DBState :=
  if hasRow s fid bvid then s
  else { s with favorite_videos := s.favorite_videos ++ [⟨fid, bvid, true⟩] }

/-- Outcome of one iteration of the targets loop: the new state, whether
the cache entry was overwritten this cycle, and whether the
delete-then-add re-index ran. -/
structure TargetOutcome where
  state : DBState
  replaced : Bool
  reindexed : Bool

/-- The replace-if-better rule of the targets loop: adopt the fetched
content when no prior content existed, the new source outranks the old,
or the (non-empty) text differs from the old text. -/
def shouldUpdate (old_content : String) (old_source : Option String)
    (c : VideoContent) : Bool :=
  if old_content = "" then true
  else if c.source.value ≠ "" && isBetterSource c.source.value old_source then true
  else if pyStrip c.content ≠ "" && pyStrip c.content ≠ old_content then true
  else false

/-- Stripped text of a video's cache row (empty when the row is absent). -/
def oldContentOf (cache : Option VideoCache) : String :=
  pyStrip ((cache.map (·.content)).join.getD "")

/-- Content source of a video's cache row, flattened. -/
def oldSourceOf (cache : Option VideoCache) : Option String :=
  (cache.map (·.content_source)).join

/-- One iteration of the `for bvid in targets` loop of `_sync_folder`:
the conditional fetch (`needs_fetch`), the replace-if-better rule, the
re-index decision (`global_count == 0 or should_reindex`, rebuilding
either from the fetched result, a usable cached ASR text, or a fresh
fetch that unconditionally overwrites the cache), and the unconditional
membership write. -/
def processTarget (env : SyncEnv) (fid : Nat) (meta : Meta) (s : DBState)
    (bvid : String) : TargetOutcome :=
  let global_count := globalCount s bvid
  let cache := findCache s bvid
  if shouldRefreshCache cache then
    let c := env.fetch bvid
    let su := shouldUpdate (oldContentOf cache) (oldSourceOf cache) c
    let s1 := if su && cache.isSome then writeCacheContent s bvid c else s
    if global_count == 0 || su then
      ⟨addMembership (ragReindex env s1 bvid c) fid bvid, su && cache.isSome, true⟩
    else
      ⟨addMembership s1 fid bvid, su && cache.isSome, false⟩
  else
    if global_count == 0 then
      if isAsrCacheUsable cache then
        let c : VideoContent :=
          ⟨bvid, meta.title, oldContentOf cache, .asr, (cache.map (·.outline_json)).join⟩
        ⟨addMembership (ragReindex env (markProcessed s bvid) bvid c) fid bvid,
          false, true⟩
      else
        let c := env.fetch bvid
        let s2 := if cache.isSome then writeCacheContent s bvid c else s
        ⟨addMembership (ragReindex env s2 bvid c) fid bvid, cache.isSome, true⟩
    else ⟨addMembership s fid bvid, false, false⟩

/-- One iteration of the removal loop: delete the video's chunks only
when no *other* folder still holds a membership row for it. -/
def removeChunksStep (fid : Nat) (st : DBState) (bvid : String) : DBState :=
  let other := (st.favorite_videos.filter
    (fun r => r.bvid == bvid && r.folder_id != fid)).length
  if other = 0 then { st with chunks := ragDeleteVideo st.chunks bvid }
  else st

/-- The removal phase: for each confirmed-removed bvid, delete its chunks
only when no other folder still references it, then drop this folder's
membership rows for the removed set. -/
def removePhase (fid : Nat) (removedL : List String) (s : DBState) : DBState :=
  if removedL = [] then s
  else
    let s1 := removedL.foldl (removeChunksStep fid) s
    { s1 with favorite_videos := (s1.favorite_videos.filter
        (fun r => !(r.folder_id == fid && removedL.contains r.bvid))) }

/-- Stamp the folder's `last_sync_at`. -/
def setLastSync (s : DBState) (fid : Nat) (now : Nat) : DBState :=
  { s with folders := s.folders.map (fun f =>
      if f.id == fid then { f with last_sync_at := some now } else f) }

/-- The per-collection result dict of `_sync_folder`. -/
structure SyncResult where
  folder_id : Nat
  total : Nat
  added : Nat
  removed : Nat
  indexed : Nat
  message : String
  last_sync_at : Option Nat := none
deriving DecidableEq, Repr

/-- The anomalous-empty-listing condition of the guard at the top of
`_sync_folder`: no members came back although the summary says there are
some (a raised `get_favorite_content` leaves `info = {}`). -/
def anomalousListing (env : SyncEnv) : Prop :=
  env.videos = [] ∧ 0 < (env.info.getD {}).media_count.getD env.videos.length

instance (env : SyncEnv) : Decidable (anomalousListing env) := by
  unfold anomalousListing; infer_instance

/-- Write the listing metadata of every `video_map` entry into the cache. -/
def upsertAll (vm : List (String × Meta)) (s : DBState) : DBState :=
  vm.foldl (fun st p => upsertVideoCache st p.1 p.2) s

/-- The update-candidate scan: already-known members whose cache fails the
refresh check (computed after the metadata upserts). -/
def updateCandidates (s : DBState) (current existing : List String) :
    List String :=
  (current.filter (fun b => existing.contains b)).filter
    (fun b => shouldRefreshCache (findCache s b))

/-- The `for bvid in targets` loop. -/
def runTargets (env : SyncEnv) (fid : Nat) (vm : List (String × Meta))
    (s : DBState) (targets : List String) : DBState :=
  targets.foldl (fun st b => (processTarget env fid (metaOf vm b) st b).state) s

/-- The non-anomalous body of `_sync_folder`. -/
def syncBody (env : SyncEnv) (s : DBState) (session_id : String)
    (folder_id : Nat) (exclude : List String) : SyncResult × DBState :=
  let info : FolderInfo := env.info.getD {}
  let video_map := buildVideoMap exclude env.videos
  let valid_count := video_map.length
  let current := video_map.map (·.1)
  let fs1 := getOrCreateFolder s session_id folder_id info.title valid_count
  let folder := fs1.1
  let s1 := fs1.2
  let existing := existingBvids s1 folder.id
  let addedL := current.filter (fun b => !(existing.contains b))
  let removedL := existing.filter (fun b => !(current.contains b))
  let s2 := upsertAll video_map s1
  let targets := addedL ++ updateCandidates s2 current existing
  let s3 := runTargets env folder.id video_map s2 targets
  let s4 := removePhase folder.id removedL s3
  let s5 := setLastSync s4 folder.id env.now
  let indexed := (folderBvids s5 folder.id).dedup.length
  ({ folder_id, total := valid_count, added := addedL.length,
     removed := removedL.length, indexed, message := "同步完成",
     last_sync_at := some env.now }, s5)

/-- `_sync_folder`: the full per-collection sync.  The anomalous
empty-listing guard returns before any mutation; note that its
existing-row count filters `favorite_videos.folder_id` by the remote
media id (the `folder_id` parameter), not by the folder's DB id. -/
def syncFolder (env : SyncEnv) (s : DBState) (session_id : String)
    (folder_id : Nat) (exclude : List String) : SyncResult × DBState :=
  if anomalousListing env then
    let total_in_folder := (env.info.getD {}).media_count.getD env.videos.length
    let existing_count :=
      (s.favorite_videos.filter (fun r => r.folder_id == folder_id)).length
    ({ folder_id, total := total_in_folder, added := 0, removed := 0,
       indexed := existing_count, message := "本次同步异常：空列表，已跳过",
       last_sync_at := some env.now }, s)
  else
    syncBody env s session_id folder_id exclude

/-! ## Batch fetch (`ContentFetcher.fetch_all_videos_content`) -/

/-- One element of the batch input list (`video.get(...)` views). -/
structure BatchVideo where
  bvid : Option String := none
  title : String := ""
  cid : Option Nat := none
deriving DecidableEq, Repr

/-- Observable side effects of the batch loop: a progress-callback
invocation `(current, total, title)`, or the fixed ≈0.5 s rate-limit
sleep executed after an item. -/
inductive BatchEvent
  | progress (current total : Nat) (title : String)
  | sleep
deriving DecidableEq, Repr

/-- Environment of a batch run: the outcome of `fetch_content` for the
item at each 0-based input position; `.error msg` models the call
raising with message `msg`. -/
structure BatchEnv where
  fetch : Nat → Except String VideoContent

/-- The error-tagged substitute result built in the `except` branch
(`title or bvid`, `"处理失败: ..."`, `basic_info`). -/
def errResult (bvid title msg : String) : VideoContent :=
  ⟨bvid, if title = "" then bvid else title, "处理失败: " ++ msg, .basic_info, none⟩

/-- The `for i, video in enumerate(videos)` loop: entries without a bvid
are skipped outright; a successful fetch appends the result and fires the
progress callback; a raising fetch appends the error substitute; every
non-skipped item is followed by the rate-limit sleep. -/
def batchGo (env : BatchEnv) (total : Nat) :
    Nat → List BatchVideo → List VideoContent × List BatchEvent
  | _, [] => ([], [])
  | i, v :: rest =>
    if truthyStr v.bvid then
      let tail := batchGo env total (i + 1) rest
      match env.fetch i with
      | .ok c =>
          (c :: tail.1, .progress (i + 1) total v.title :: .sleep :: tail.2)
      | .error e =>
          (errResult (v.bvid.getD "") v.title e :: tail.1, .sleep :: tail.2)
    else
      batchGo env total (i + 1) rest

/-- `ContentFetcher.fetch_all_videos_content`: sequential batch fetch
with per-item error substitution and progress reporting. -/
def fetch_all_videos_content (env : BatchEnv) (videos : List BatchVideo) :
    List VideoContent × List BatchEvent :=
  batchGo env videos.length 0 videos

/-! ## Local-audio transcription attempt over the file system
(`ContentFetcher._try_asr_with_local_audio`,
`ASRService._recognize_local_file`).  The file system is the list of
existing local paths. -/

/-- Environment of one local-audio attempt: whether the download
succeeds, the downloaded file's size, the path produced by
`_prepare_recognition_input` (`none` = transcoding failed), whether the
`Recognition` call raises, and the sentence texts it returns. -/
structure AsrEnv where
  downloadOk : Bool := true
  fileSize : Nat := 0
  prepared : Option String := none
  recogRaises : Bool := false
  sentences : List String := []
  ext : String := ".m4s"
  now : Nat := 0

/-- The temp-file path `data/asr_tmp/{bvid}_{cid}_{int(time.time())}{ext}`
(a `None` cid is rendered like Python's f-string would). -/
def mkTmpPath (env : AsrEnv) (bvid : String) (cid : Option Nat) : String :=
  "data/asr_tmp/" ++ bvid ++ "_" ++
    (match cid with | some n => toString n | none => "None") ++ "_" ++
    toString env.now ++ (if env.ext = "" then ".m4s" else env.ext)

/-- `ASRService._recognize_local_file`: the existence check and the
transcoding step run *before* the `try`/`finally` that deletes the
audio and its transcoded derivative, so a failed preparation returns
without any cleanup. -/
def recognizeLocalFile (env : AsrEnv) (fs : List String)
    (file_path : String) : Option String × List String :=
  if ¬ fs.contains file_path then (none, fs)
  else match env.prepared with
  | none => (none, fs)
  | some input_path =>
    let fs1 := if fs.contains input_path then fs else fs ++ [input_path]
    let texts := env.sentences.filter (fun t => t ≠ "")
    let text : Option String :=
      if env.recogRaises then none
      else if texts = [] then none
      else some (pyStrip (String.intercalate "\n" texts))
    (text, fs1.filter (fun p => !(p == file_path || p == input_path)))

/-- `ContentFetcher._try_asr_with_local_audio`: download the audio to a
temp file, drop files under 1024 bytes, then hand the file to
`transcribe_local_file` (which owns the cleanup). -/
def tryAsrWithLocalAudio (env : AsrEnv) (fs : List String) (bvid : String)
    (cid : Option Nat) : Option String × List String :=
  let file_path := mkTmpPath env bvid cid
  if ¬ env.downloadOk then (none, fs)
  else
    let fs1 := if fs.contains file_path then fs else fs ++ [file_path]
    if env.fileSize < 1024 then
      (none, fs1.filter (fun p => !(p == file_path)))
    else
      recognizeLocalFile env fs1 file_path

/-! ## Concrete scenario instances used by the theorems -/

/-- Sync environment of the anomalous-listing scenario: the listing
returns no members while the summary reports two. -/
def envAnom : SyncEnv :=
  { info := some { title := some "收藏夹", media_count := some 2 },
    videos := [],
    fetch := fun b => ⟨b, b, "", .basic_info, none⟩,
    chunksOf := fun _ => 1, now := 5 }

/-- Database of the anomalous-listing scenario: the folder's DB id is 1,
its remote media id is 77, and it holds two membership rows. -/
def dbAnom : DBState :=
  { folders := [{ id := 1, session_id := "s", media_id := 77,
                  title := "收藏夹", media_count := 2 }],
    favorite_videos := [⟨1, "A", true⟩, ⟨1, "B", true⟩],
    video_cache := [], chunks := [("A", 2), ("B", 2)], next_folder_id := 2 }

/-- Environment of the no-reindex counterexample: fetching returns the
same `basic_info` text that is already cached. -/
def envNoReindex : SyncEnv :=
  { fetch := fun b => ⟨b, "t", "hello", .basic_info, none⟩,
    chunksOf := fun _ => 4, now := 0 }

/-- State of the no-reindex counterexample: video "A" has one membership
row, a short cached text, and zero indexed chunks. -/
def dbNoReindex : DBState :=
  { folders := [],
    favorite_videos := [⟨1, "A", true⟩],
    video_cache := [{ bvid := "A", title := "t", content := some "hello",
                      content_source := some "basic_info" }],
    chunks := [], next_folder_id := 2 }

/-- Environment of the rank-downgrade run: the fetch returns a
`basic_info` result whose text differs from the cached ASR text. -/
def envDowngrade : SyncEnv :=
  { info := some { title := some "f", media_count := some 1 },
    videos := [{ bvid := some "A", title := some "tA", cid := some 1 }],
    fetch := fun b => ⟨b, "tA", "视频标题：tA", .basic_info, none⟩,
    chunksOf := fun _ => 2, now := 3 }

/-- State of the rank-downgrade run: video "A" already a member, with an
`asr`-tier cache entry whose text is shorter than 50 characters. -/
def dbDowngrade : DBState :=
  { folders := [{ id := 1, session_id := "s", media_id := 9,
                  title := "f", media_count := 1 }],
    favorite_videos := [⟨1, "A", true⟩],
    video_cache := [{ bvid := "A", title := "tA", content := some "短",
                      content_source := some "asr" }],
    chunks := [], next_folder_id := 2 }

/-- Fetch environment producing a 49-character transcript. -/
def fenv49 : FetchEnv :=
  { audio_url := some "u",
    local_asr_text := some (String.mk (List.replicate 49 'x')) }

/-- Fetch environment producing a 50-character transcript. -/
def fenv50 : FetchEnv :=
  { audio_url := some "u",
    local_asr_text := some (String.mk (List.replicate 50 'x')) }

/-- Environment of the cleanup-leak run: download succeeds with a
2048-byte file, transcoding fails. -/
def asrEnvLeak : AsrEnv :=
  { downloadOk := true, fileSize := 2048, prepared := none, now := 7 }

/-! ## Derived views and helper values -/

/-- Chunk total of one bvid over a raw chunk-batch list. -/
def cntChunks (l : List (String × Nat)) (bvid : String) : Nat :=
  (l.filter (fun p => p.1 == bvid)).foldr (fun p acc => p.2 + acc) 0

/-- Membership rows for this bvid held by *other* folders (the
reference-count query of the removal phase). -/
def otherCount (s : DBState) (fid : Nat) (bvid : String) : Nat :=
  (s.favorite_videos.filter
    (fun r => r.bvid == bvid && r.folder_id != fid)).length

/-- The chunk total a re-index of `b` from a fresh fetch leaves behind. -/
def reindexVal (env : SyncEnv) (b : String) : Nat :=
  if env.addOk b then env.chunksOf (env.fetch b) else 0

/-- The cache data the sync decisions depend on: stripped text and
source tag. -/
def cacheView (s : DBState) (b : String) : String × Option String :=
  (oldContentOf (findCache s b), oldSourceOf (findCache s b))

/-- The durable-database part of a state: everything except the vector
store. -/
def stripChunks (s : DBState) : DBState := { s with chunks := [] }

/-- Invariant of a video the targets loop has processed: its membership
row exists, and if it would still be an update candidate then either a
re-fetch would not replace its cache, or its chunk total already equals
what a re-index of the (deterministically) fetched content leaves. -/
def postSync (env : SyncEnv) (fid : Nat) (s : DBState) (b : String) : Prop :=
  hasRow s fid b = true ∧
  (shouldRefreshCache (findCache s b) = true →
    (shouldUpdate (oldContentOf (findCache s b)) (oldSourceOf (findCache s b))
        (env.fetch b) = false ∨
      chunkCount s b = reindexVal env b))

/-- Two folders sharing video "A", for the reference-count witness. -/
def envShared : SyncEnv :=
  { info := some { media_count := some 0 }, videos := [],
    fetch := fun b => ⟨b, b, "", .basic_info, none⟩,
    chunksOf := fun _ => 1, now := 1 }

/-- Database for the reference-count witness: video "A" indexed and held
by folders 1 and 2. -/
def dbShared : DBState :=
  { folders := [⟨1, "s", 9, "f1", 1, true, none⟩,
                ⟨2, "s", 10, "f2", 1, true, none⟩],
    favorite_videos := [⟨1, "A", true⟩, ⟨2, "A", true⟩],
    video_cache := [], chunks := [("A", 3)], next_folder_id := 3 }

/-- The folder losing video "A" in the reference-count witness. -/
def folderShared : FavoriteFolder := ⟨1, "s", 9, "f1", 1, true, none⟩

/-- Environment of the good-ASR preservation witness. -/
def envGoodAsr : SyncEnv :=
  { info := some { title := some "f", media_count := some 1 },
    videos := [{ bvid := some "A", title := some "tA", cid := some 1 }],
    fetch := fun b => ⟨b, "tA", "basic text", .basic_info, none⟩,
    chunksOf := fun _ => 2, now := 3 }

/-- Database of the good-ASR preservation witness: an `asr` cache entry
with a 50-character text. -/
def dbGoodAsr : DBState :=
  { folders := [⟨1, "s", 9, "f", 1, true, none⟩],
    favorite_videos := [⟨1, "A", true⟩],
    video_cache := [{ bvid := "A", title := "t",
                      content := some (String.mk (List.replicate 50 'x')),
                      content_source := some "asr" }],
    chunks := [("A", 2)], next_folder_id := 2 }

/-! # Theorems about the embedded pipeline -/

section Lemmas

lemma chunkCount_eq_cnt (s : DBState) (b : String) :
    chunkCount s b = cntChunks s.chunks b := rfl

lemma cntChunks_append (l l' : List (String × Nat)) (b : String) :
    cntChunks (l ++ l') b = cntChunks l b + cntChunks l' b := by
  unfold cntChunks
  rw [List.filter_append, List.foldr_append]
  induction l.filter (fun p => p.1 == b) with
  | nil => simp
  | cons p t ih => simp [ih]; omega

lemma cntChunks_delete_self (l : List (String × Nat)) (b : String) :
    cntChunks (ragDeleteVideo l b) b = 0 := by
  unfold cntChunks ragDeleteVideo
  rw [List.filter_filter]
  have : (fun p : String × Nat => p.1 == b && (p.1 != b)) = fun _ => false := by
    funext p
    by_cases h : p.1 = b <;> simp [h]
  rw [this, List.filter_false]
  rfl

lemma cntChunks_delete_other (l : List (String × Nat)) (b x : String)
    (h : x ≠ b) : cntChunks (ragDeleteVideo l b) x = cntChunks l x := by
  unfold cntChunks ragDeleteVideo
  rw [List.filter_filter]
  congr 1
  apply List.filter_congr
  intro p _
  by_cases hp : p.1 = x
  · subst hp
    simp [bne, h]
  · simp [hp]

lemma cntChunks_singleton_self (b : String) (n : Nat) :
    cntChunks [(b, n)] b = n := by simp [cntChunks]

lemma cntChunks_singleton_other (b x : String) (n : Nat) (h : x ≠ b) :
    cntChunks [(b, n)] x = 0 := by simp [cntChunks, Ne.symm h]

lemma hasRow_iff (s : DBState) (fid : Nat) (b : String) :
    hasRow s fid b = true ↔
      ∃ r ∈ s.favorite_videos, r.folder_id = fid ∧ r.bvid = b := by
  simp [hasRow, rowsHas, List.any_eq_true]

lemma rowsHas_append (l l' : List FavoriteVideo) (fid : Nat) (b : String) :
    rowsHas (l ++ l') fid b = (rowsHas l fid b || rowsHas l' fid b) := by
  simp [rowsHas, List.any_append]

lemma mem_existingBvids (s : DBState) (fid : Nat) (b : String) :
    b ∈ existingBvids s fid ↔ hasRow s fid b = true := by
  simp only [existingBvids, folderBvids, List.mem_dedup, List.mem_map,
    List.mem_filter, hasRow_iff]
  constructor
  · rintro ⟨r, ⟨hr, hfid⟩, hb⟩
    exact ⟨r, hr, by simpa using hfid, hb⟩
  · rintro ⟨r, hr, hfid, hb⟩
    exact ⟨r, ⟨hr, by simpa using hfid⟩, hb⟩

lemma globalCount_ne_zero_of_hasRow (s : DBState) (fid : Nat) (b : String)
    (h : hasRow s fid b = true) : globalCount s b ≠ 0 := by
  rcases (hasRow_iff s fid b).mp h with ⟨r, hr, _, hb⟩
  have : r ∈ s.favorite_videos.filter (fun r => r.bvid == b) :=
    List.mem_filter.mpr ⟨hr, by simp [hb]⟩
  unfold globalCount
  intro hlen
  rw [List.length_eq_zero] at hlen
  rw [hlen] at this
  exact absurd this (List.not_mem_nil r)

lemma hasRow_congr (s s' : DBState)
    (h : s'.favorite_videos = s.favorite_videos) (fid : Nat) (b : String) :
    hasRow s' fid b = hasRow s fid b := by
  simp [hasRow, h]

lemma findCache_updCache (b : String) (g : VideoCache → VideoCache)
    (hg : ∀ c, (g c).bvid = c.bvid) (s : DBState) (x : String) :
    findCache (updCache b g s) x =
      (findCache s x).map (fun c => if c.bvid == b then g c else c) := by
  unfold findCache updCache
  have hpf : (fun c : VideoCache =>
      ((if c.bvid == b then g c else c).bvid == x)) =
      (fun c : VideoCache => c.bvid == x) := by
    funext c
    by_cases hc : c.bvid = b <;> simp [hc, hg]
  simp only [List.find?_map, Function.comp_def, hpf]

lemma findCache_updCache_other (b : String) (g : VideoCache → VideoCache)
    (hg : ∀ c, (g c).bvid = c.bvid) (s : DBState) (x : String) (h : x ≠ b) :
    findCache (updCache b g s) x = findCache s x := by
  rw [findCache_updCache b g hg s x]
  cases hf : findCache s x with
  | none => rfl
  | some c =>
    unfold findCache at hf
    have hc := List.find?_some hf
    simp only [beq_iff_eq] at hc
    simp [hc, h]

lemma findCache_updCache_self (b : String) (g : VideoCache → VideoCache)
    (hg : ∀ c, (g c).bvid = c.bvid) (s : DBState) :
    findCache (updCache b g s) b = (findCache s b).map g := by
  rw [findCache_updCache b g hg s b]
  cases hf : findCache s b with
  | none => rfl
  | some c =>
    unfold findCache at hf
    have hc := List.find?_some hf
    simp only [beq_iff_eq] at hc
    simp [hc]

lemma shouldRefreshCache_congr (c c' : Option VideoCache)
    (h1 : oldContentOf c = oldContentOf c')
    (h2 : oldSourceOf c = oldSourceOf c') :
    shouldRefreshCache c = shouldRefreshCache c' := by
  have key : ∀ d : Option VideoCache, shouldRefreshCache d =
      (if (oldContentOf d).length < 50 then true
       else match oldSourceOf d with
         | none => true
         | some src => src = "" || src = "basic_info") := by
    intro d
    cases d with
    | none => simp [shouldRefreshCache, oldContentOf, oldSourceOf, pyStrip]
    | some c => simp [shouldRefreshCache, oldContentOf, oldSourceOf]
  rw [key, key, h1, h2]

lemma isAsrCacheUsable_congr (c c' : Option VideoCache)
    (h1 : oldContentOf c = oldContentOf c')
    (h2 : oldSourceOf c = oldSourceOf c') :
    isAsrCacheUsable c = isAsrCacheUsable c' := by
  have key : ∀ d : Option VideoCache, isAsrCacheUsable d =
      (if oldSourceOf d ≠ some "asr" then false
       else decide (50 ≤ (oldContentOf d).length)) := by
    intro d
    cases d with
    | none => simp [isAsrCacheUsable, oldContentOf, oldSourceOf, pyStrip]
    | some c =>
      simp only [isAsrCacheUsable, oldContentOf, oldSourceOf, Option.map_some,
        Option.join, Option.getD]
      split <;> simp_all
  rw [key, key, h1, h2]

lemma upsert_favorite_videos (s : DBState) (b : String) (m : Meta) :
    (upsertVideoCache s b m).favorite_videos = s.favorite_videos := by
  unfold upsertVideoCache
  cases findCache s b <;> rfl

lemma upsert_folders (s : DBState) (b : String) (m : Meta) :
    (upsertVideoCache s b m).folders = s.folders := by
  unfold upsertVideoCache
  cases findCache s b <;> rfl

lemma upsert_chunks (s : DBState) (b : String) (m : Meta) :
    (upsertVideoCache s b m).chunks = s.chunks := by
  unfold upsertVideoCache
  cases findCache s b <;> rfl

lemma upsert_next (s : DBState) (b : String) (m : Meta) :
    (upsertVideoCache s b m).next_folder_id = s.next_folder_id := by
  unfold upsertVideoCache
  cases findCache s b <;> rfl

lemma cacheView_upsert (s : DBState) (b : String) (m : Meta) (x : String) :
    cacheView (upsertVideoCache s b m) x = cacheView s x := by
  unfold upsertVideoCache
  cases hf : findCache s b with
  | none =>
    unfold cacheView findCache oldContentOf oldSourceOf
    simp only [List.find?_append]
    cases hx : findCache s x with
    | some c =>
      unfold findCache at hx
      simp [hx]
    | none =>
      unfold findCache at hx
      simp only [hx, Option.none_or]
      by_cases hxb : x = b
      · subst hxb
        simp [List.find?, pyStrip]
      · have hbx : (b == x) = false := by
          simp only [beq_eq_false_iff_ne]
          exact Ne.symm hxb
        simp [List.find?, hbx, pyStrip]
  | some c0 =>
    have hg : ∀ c : VideoCache,
        (({ c with
            title := if m.title = "" then c.title else m.title,
            description := if m.intro.isSome then m.intro else c.description,
            owner_name := if m.owner_name.isSome then m.owner_name else c.owner_name,
            owner_mid := if m.owner_mid.isSome then m.owner_mid else c.owner_mid,
            duration := if m.duration.isSome then m.duration else c.duration,
            pic_url := if m.cover.isSome then m.cover else c.pic_url } :
          VideoCache)).bvid = c.bvid := fun c => rfl
    unfold cacheView oldContentOf oldSourceOf
    rw [findCache_updCache _ _ hg]
    cases findCache s x with
    | none => rfl
    | some c =>
      by_cases hc : c.bvid = b <;> simp [hc]

lemma addMembership_favorite_videos (s : DBState) (fid : Nat) (b : String) :
    (addMembership s fid b).favorite_videos =
      s.favorite_videos ++
        (if hasRow s fid b then [] else [⟨fid, b, true⟩]) := by
  unfold addMembership
  split <;> simp_all

lemma addMembership_video_cache (s : DBState) (fid : Nat) (b : String) :
    (addMembership s fid b).video_cache = s.video_cache := by
  unfold addMembership
  split <;> rfl

lemma addMembership_chunks (s : DBState) (fid : Nat) (b : String) :
    (addMembership s fid b).chunks = s.chunks := by
  unfold addMembership
  split <;> rfl

lemma addMembership_folders (s : DBState) (fid : Nat) (b : String) :
    (addMembership s fid b).folders = s.folders := by
  unfold addMembership
  split <;> rfl

lemma addMembership_next (s : DBState) (fid : Nat) (b : String) :
    (addMembership s fid b).next_folder_id = s.next_folder_id := by
  unfold addMembership
  split <;> rfl

lemma findCache_addMembership (s : DBState) (fid : Nat) (b x : String) :
    findCache (addMembership s fid b) x = findCache s x := by
  unfold findCache
  rw [addMembership_video_cache]

lemma chunkCount_addMembership (s : DBState) (fid : Nat) (b x : String) :
    chunkCount (addMembership s fid b) x = chunkCount s x := by
  rw [chunkCount_eq_cnt, chunkCount_eq_cnt, addMembership_chunks]

lemma hasRow_addMembership_self (s : DBState) (fid : Nat) (b : String) :
    hasRow (addMembership s fid b) fid b = true := by
  unfold hasRow
  rw [addMembership_favorite_videos, rowsHas_append]
  by_cases h : hasRow s fid b <;> simp_all [hasRow, rowsHas]

lemma hasRow_addMembership (s : DBState) (fid : Nat) (b : String)
    (fid' : Nat) (x : String) :
    hasRow (addMembership s fid b) fid' x =
      (hasRow s fid' x || (fid' == fid && x == b)) := by
  unfold hasRow
  rw [addMembership_favorite_videos, rowsHas_append]
  by_cases hb : rowsHas s.favorite_videos fid b
  · rw [show hasRow s fid b = true from hb, if_pos rfl]
    by_cases hx : (fid' == fid && x == b) = true
    · simp only [beq_iff_eq, Bool.and_eq_true] at hx
      obtain ⟨h1, h2⟩ := hx
      subst h1; subst h2
      simp [hb]
    · simp [Bool.eq_false_iff.mpr hx, rowsHas]
  · rw [show hasRow s fid b = false from Bool.eq_false_iff.mpr hb]
    simp only [Bool.false_eq_true, if_false]
    simp only [rowsHas, List.any_cons, List.any_nil, Bool.or_false, hasRow]
    have hcomm : (fid == fid' && b == x) = (fid' == fid && x == b) := by
      by_cases h1 : fid = fid'
      · subst h1
        by_cases h2 : b = x
        · subst h2; rfl
        · rw [beq_eq_false_iff_ne.mpr h2, beq_eq_false_iff_ne.mpr (Ne.symm h2)]
      · rw [beq_eq_false_iff_ne.mpr h1, beq_eq_false_iff_ne.mpr (Ne.symm h1),
          Bool.false_and, Bool.false_and]
    rw [hcomm]

lemma ragReindex_video_cache (env : SyncEnv) (s : DBState) (b : String)
    (v : VideoContent) : (ragReindex env s b v).video_cache = s.video_cache := by
  unfold ragReindex
  split <;> rfl

lemma ragReindex_favorite_videos (env : SyncEnv) (s : DBState) (b : String)
    (v : VideoContent) :
    (ragReindex env s b v).favorite_videos = s.favorite_videos := by
  unfold ragReindex
  split <;> rfl

lemma ragReindex_folders (env : SyncEnv) (s : DBState) (b : String)
    (v : VideoContent) : (ragReindex env s b v).folders = s.folders := by
  unfold ragReindex
  split <;> rfl

lemma ragReindex_next (env : SyncEnv) (s : DBState) (b : String)
    (v : VideoContent) :
    (ragReindex env s b v).next_folder_id = s.next_folder_id := by
  unfold ragReindex
  split <;> rfl

lemma findCache_ragReindex (env : SyncEnv) (s : DBState) (b : String)
    (v : VideoContent) (x : String) :
    findCache (ragReindex env s b v) x = findCache s x := by
  unfold findCache
  rw [ragReindex_video_cache]

lemma chunkCount_ragReindex_self (env : SyncEnv) (s : DBState) (b : String)
    (v : VideoContent) :
    chunkCount (ragReindex env s b v) b =
      (if env.addOk b then env.chunksOf v else 0) := by
  rw [chunkCount_eq_cnt]
  unfold ragReindex
  split
  · show cntChunks (ragDeleteVideo s.chunks b ++ [(b, env.chunksOf v)]) b = _
    rw [cntChunks_append, cntChunks_delete_self, cntChunks_singleton_self]
    simp
  · show cntChunks (ragDeleteVideo s.chunks b) b = _
    rw [cntChunks_delete_self]

lemma chunkCount_ragReindex_other (env : SyncEnv) (s : DBState) (b : String)
    (v : VideoContent) (x : String) (h : x ≠ b) :
    chunkCount (ragReindex env s b v) x = chunkCount s x := by
  rw [chunkCount_eq_cnt, chunkCount_eq_cnt]
  unfold ragReindex
  split
  · show cntChunks (ragDeleteVideo s.chunks b ++ [(b, env.chunksOf v)]) x = _
    rw [cntChunks_append, cntChunks_delete_other _ _ _ h,
      cntChunks_singleton_other _ _ _ h]
    simp
  · show cntChunks (ragDeleteVideo s.chunks b) x = _
    rw [cntChunks_delete_other _ _ _ h]

lemma updCache_favorite_videos (b : String) (g : VideoCache → VideoCache)
    (s : DBState) : (updCache b g s).favorite_videos = s.favorite_videos := rfl

lemma updCache_folders (b : String) (g : VideoCache → VideoCache)
    (s : DBState) : (updCache b g s).folders = s.folders := rfl

lemma updCache_chunks (b : String) (g : VideoCache → VideoCache)
    (s : DBState) : (updCache b g s).chunks = s.chunks := rfl

lemma updCache_next (b : String) (g : VideoCache → VideoCache)
    (s : DBState) : (updCache b g s).next_folder_id = s.next_folder_id := rfl

lemma findCache_write_other (s : DBState) (b : String) (v : VideoContent)
    (x : String) (h : x ≠ b) :
    findCache (writeCacheContent s b v) x = findCache s x := by
  unfold writeCacheContent
  apply findCache_updCache_other
  · intro c; rfl
  · exact h

lemma findCache_mark_other (s : DBState) (b x : String) (h : x ≠ b) :
    findCache (markProcessed s b) x = findCache s x := by
  unfold markProcessed
  apply findCache_updCache_other
  · intro c; rfl
  · exact h

lemma cacheView_write_self (s : DBState) (b : String) (v : VideoContent)
    (c : VideoCache) (hf : findCache s b = some c) :
    cacheView (writeCacheContent s b v) b =
      (pyStrip v.content, some v.source.value) := by
  unfold writeCacheContent cacheView oldContentOf oldSourceOf
  have hh := findCache_updCache_self b (fun c => ({ c with content := some v.content, content_source := some v.source.value, outline_json := v.outline, is_processed := true } : VideoCache)) (fun c => rfl) s
  rw [hh, hf]
  simp

lemma cacheView_mark_self (s : DBState) (b : String) :
    cacheView (markProcessed s b) b = cacheView s b := by
  unfold markProcessed cacheView oldContentOf oldSourceOf
  have hh := findCache_updCache_self b (fun c => ({ c with is_processed := true } : VideoCache)) (fun c => rfl) s
  rw [hh]
  cases findCache s b <;> simp

lemma processTarget_eq_refresh_update (env : SyncEnv) (fid : Nat) (m : Meta)
    (s : DBState) (b : String)
    (hr : shouldRefreshCache (findCache s b) = true)
    (hsu : shouldUpdate (oldContentOf (findCache s b))
      (oldSourceOf (findCache s b)) (env.fetch b) = true) :
    processTarget env fid m s b =
      ⟨addMembership (ragReindex env
          (if (findCache s b).isSome then writeCacheContent s b (env.fetch b)
           else s) b (env.fetch b)) fid b,
        (findCache s b).isSome, true⟩ := by
  unfold processTarget
  dsimp only
  rw [hr, hsu]
  simp

lemma processTarget_eq_refresh_noupdate_pos (env : SyncEnv) (fid : Nat)
    (m : Meta) (s : DBState) (b : String)
    (hr : shouldRefreshCache (findCache s b) = true)
    (hsu : shouldUpdate (oldContentOf (findCache s b))
      (oldSourceOf (findCache s b)) (env.fetch b) = false)
    (hgc : globalCount s b ≠ 0) :
    processTarget env fid m s b = ⟨addMembership s fid b, false, false⟩ := by
  unfold processTarget
  dsimp only
  rw [hr, hsu]
  simp [hgc]

lemma processTarget_eq_refresh_noupdate_zero (env : SyncEnv) (fid : Nat)
    (m : Meta) (s : DBState) (b : String)
    (hr : shouldRefreshCache (findCache s b) = true)
    (hsu : shouldUpdate (oldContentOf (findCache s b))
      (oldSourceOf (findCache s b)) (env.fetch b) = false)
    (hgc : globalCount s b = 0) :
    processTarget env fid m s b =
      ⟨addMembership (ragReindex env s b (env.fetch b)) fid b, false, true⟩ := by
  unfold processTarget
  dsimp only
  rw [hr, hsu, hgc]
  simp

lemma processTarget_eq_noop (env : SyncEnv) (fid : Nat) (m : Meta)
    (s : DBState) (b : String)
    (hr : shouldRefreshCache (findCache s b) = false)
    (hgc : globalCount s b ≠ 0) :
    processTarget env fid m s b = ⟨addMembership s fid b, false, false⟩ := by
  unfold processTarget
  dsimp only
  rw [hr]
  simp [hgc]

lemma processTarget_eq_rebuild_asr (env : SyncEnv) (fid : Nat) (m : Meta)
    (s : DBState) (b : String)
    (hr : shouldRefreshCache (findCache s b) = false)
    (hgc : globalCount s b = 0)
    (ha : isAsrCacheUsable (findCache s b) = true) :
    processTarget env fid m s b =
      ⟨addMembership (ragReindex env (markProcessed s b) b
          ⟨b, m.title, oldContentOf (findCache s b), .asr,
            ((findCache s b).map (·.outline_json)).join⟩) fid b,
        false, true⟩ := by
  unfold processTarget
  dsimp only
  rw [hr, hgc, ha]
  simp

lemma processTarget_eq_rebuild_fetch (env : SyncEnv) (fid : Nat) (m : Meta)
    (s : DBState) (b : String)
    (hr : shouldRefreshCache (findCache s b) = false)
    (hgc : globalCount s b = 0)
    (ha : isAsrCacheUsable (findCache s b) = false) :
    processTarget env fid m s b =
      ⟨addMembership (ragReindex env
          (if (findCache s b).isSome then writeCacheContent s b (env.fetch b)
           else s) b (env.fetch b)) fid b,
        (findCache s b).isSome, true⟩ := by
  unfold processTarget
  dsimp only
  rw [hr, hgc, ha]
  simp

lemma processTarget_folders (env : SyncEnv) (fid : Nat) (m : Meta)
    (s : DBState) (b : String) :
    (processTarget env fid m s b).state.folders = s.folders := by
  unfold processTarget
  dsimp only
  repeat' split
  all_goals
    simp [addMembership_folders, ragReindex_folders, updCache_folders,
      writeCacheContent, markProcessed]

lemma processTarget_next (env : SyncEnv) (fid : Nat) (m : Meta)
    (s : DBState) (b : String) :
    (processTarget env fid m s b).state.next_folder_id = s.next_folder_id := by
  unfold processTarget
  dsimp only
  repeat' split
  all_goals
    simp [addMembership_next, ragReindex_next, updCache_next,
      writeCacheContent, markProcessed]

lemma addMembership_favorite_videos_congr (X s : DBState) (fid : Nat)
    (b : String) (hX : X.favorite_videos = s.favorite_videos) :
    (addMembership X fid b).favorite_videos =
      s.favorite_videos ++
        (if hasRow s fid b then [] else [⟨fid, b, true⟩]) := by
  rw [addMembership_favorite_videos, hX, hasRow_congr s X hX]

lemma processTarget_favorite_videos (env : SyncEnv) (fid : Nat) (m : Meta)
    (s : DBState) (b : String) :
    (processTarget env fid m s b).state.favorite_videos =
      s.favorite_videos ++
        (if hasRow s fid b then [] else [⟨fid, b, true⟩]) := by
  unfold processTarget
  dsimp only
  repeat' split
  all_goals
    simp_all [addMembership_favorite_videos, ragReindex_favorite_videos,
      updCache_favorite_videos, writeCacheContent, markProcessed, hasRow]

lemma processTarget_findCache_other (env : SyncEnv) (fid : Nat) (m : Meta)
    (s : DBState) (b x : String) (h : x ≠ b) :
    findCache (processTarget env fid m s b).state x = findCache s x := by
  have hw : ∀ s' : DBState,
      findCache (writeCacheContent s' b (env.fetch b)) x = findCache s' x :=
    fun s' => findCache_write_other s' b (env.fetch b) x h
  have hm : findCache (markProcessed s b) x = findCache s x :=
    findCache_mark_other s b x h
  unfold processTarget
  dsimp only
  repeat' split
  all_goals simp [findCache_addMembership, findCache_ragReindex, hw, hm]

lemma processTarget_chunkCount_other (env : SyncEnv) (fid : Nat) (m : Meta)
    (s : DBState) (b x : String) (h : x ≠ b) :
    chunkCount (processTarget env fid m s b).state x = chunkCount s x := by
  have h1 : ∀ (s' : DBState) (v : VideoContent),
      chunkCount (ragReindex env s' b v) x = chunkCount s' x :=
    fun s' v => chunkCount_ragReindex_other env s' b v x h
  have hw : ∀ (s' : DBState) (v : VideoContent),
      chunkCount (writeCacheContent s' b v) x = chunkCount s' x :=
    fun _ _ => rfl
  have hm : ∀ s' : DBState,
      chunkCount (markProcessed s' b) x = chunkCount s' x := fun _ => rfl
  unfold processTarget
  dsimp only
  repeat' split
  all_goals simp [chunkCount_addMembership, h1, hw, hm]

lemma postSync_of_views (env : SyncEnv) (fid : Nat) (s s' : DBState)
    (b : String) (h1 : cacheView s' b = cacheView s b)
    (h2 : hasRow s' fid b = hasRow s fid b)
    (h3 : chunkCount s' b = chunkCount s b) :
    postSync env fid s b → postSync env fid s' b := by
  have e1 : oldContentOf (findCache s' b) = oldContentOf (findCache s b) :=
    congrArg Prod.fst h1
  have e2 : oldSourceOf (findCache s' b) = oldSourceOf (findCache s b) :=
    congrArg Prod.snd h1
  rintro ⟨ha, hb⟩
  refine ⟨by rw [h2]; exact ha, ?_⟩
  intro hrefresh
  rw [shouldRefreshCache_congr _ _ e1 e2] at hrefresh
  rcases hb hrefresh with h | h
  · left
    rw [e1, e2]
    exact h
  · right
    rw [h3]
    exact h

lemma cacheView_of_findCache_eq (s s' : DBState) (b : String)
    (h : findCache s' b = findCache s b) : cacheView s' b = cacheView s b := by
  unfold cacheView
  rw [h]

lemma processTarget_postSync_self (env : SyncEnv) (fid : Nat) (m : Meta)
    (s : DBState) (b : String) :
    postSync env fid (processTarget env fid m s b).state b := by
  by_cases hr : shouldRefreshCache (findCache s b) = true
  · by_cases hsu : shouldUpdate (oldContentOf (findCache s b))
        (oldSourceOf (findCache s b)) (env.fetch b) = true
    · rw [processTarget_eq_refresh_update env fid m s b hr hsu]
      refine ⟨hasRow_addMembership_self _ _ _, fun _ => Or.inr ?_⟩
      rw [chunkCount_addMembership, chunkCount_ragReindex_self]
      rfl
    · have hsu' := Bool.eq_false_iff.mpr hsu
      by_cases hgc : globalCount s b = 0
      · rw [processTarget_eq_refresh_noupdate_zero env fid m s b hr hsu' hgc]
        refine ⟨hasRow_addMembership_self _ _ _, fun _ => Or.inl ?_⟩
        have hc : findCache (addMembership (ragReindex env s b (env.fetch b))
            fid b) b = findCache s b := by
          rw [findCache_addMembership, findCache_ragReindex]
        rw [show oldContentOf (findCache (addMembership
            (ragReindex env s b (env.fetch b)) fid b) b) =
            oldContentOf (findCache s b) from congrArg _ hc,
          show oldSourceOf (findCache (addMembership
            (ragReindex env s b (env.fetch b)) fid b) b) =
            oldSourceOf (findCache s b) from congrArg _ hc]
        exact hsu'
      · rw [processTarget_eq_refresh_noupdate_pos env fid m s b hr hsu' hgc]
        refine ⟨hasRow_addMembership_self _ _ _, fun _ => Or.inl ?_⟩
        have hc : findCache (addMembership s fid b) b = findCache s b :=
          findCache_addMembership s fid b b
        rw [show oldContentOf (findCache (addMembership s fid b) b) =
            oldContentOf (findCache s b) from congrArg _ hc,
          show oldSourceOf (findCache (addMembership s fid b) b) =
            oldSourceOf (findCache s b) from congrArg _ hc]
        exact hsu'
  · have hr' := Bool.eq_false_iff.mpr hr
    by_cases hgc : globalCount s b = 0
    · by_cases ha : isAsrCacheUsable (findCache s b) = true
      · rw [processTarget_eq_rebuild_asr env fid m s b hr' hgc ha]
        refine ⟨hasRow_addMembership_self _ _ _, fun habs => absurd ?_ hr⟩
        have hfc : findCache (addMembership (ragReindex env (markProcessed s b)
            b ⟨b, m.title, oldContentOf (findCache s b), .asr,
              ((findCache s b).map (·.outline_json)).join⟩) fid b) b =
            findCache (markProcessed s b) b := by
          rw [findCache_addMembership, findCache_ragReindex]
        have hv := (cacheView_of_findCache_eq _ _ _ hfc).trans
          (cacheView_mark_self s b)
        have e1 := congrArg Prod.fst hv
        have e2 := congrArg Prod.snd hv
        rw [shouldRefreshCache_congr _ _ e1 e2] at habs
        exact habs
      · have ha' := Bool.eq_false_iff.mpr ha
        rw [processTarget_eq_rebuild_fetch env fid m s b hr' hgc ha']
        refine ⟨hasRow_addMembership_self _ _ _, fun _ => Or.inr ?_⟩
        rw [chunkCount_addMembership, chunkCount_ragReindex_self]
        rfl
    · rw [processTarget_eq_noop env fid m s b hr' hgc]
      refine ⟨hasRow_addMembership_self _ _ _, fun habs => absurd ?_ hr⟩
      have hc : findCache (addMembership s fid b) b = findCache s b :=
        findCache_addMembership s fid b b
      rw [shouldRefreshCache_congr _ _
        (congrArg _ hc) (congrArg _ hc)] at habs
      exact habs

lemma processTarget_postSync_frame (env : SyncEnv) (fid : Nat) (m : Meta)
    (s : DBState) (b x : String) (h : x ≠ b) :
    postSync env fid s x → postSync env fid (processTarget env fid m s b).state x := by
  apply postSync_of_views
  · exact cacheView_of_findCache_eq _ _ _
      (processTarget_findCache_other env fid m s b x h)
  · unfold hasRow
    rw [processTarget_favorite_videos, rowsHas_append]
    have : rowsHas (if hasRow s fid b then []
        else [⟨fid, b, true⟩]) fid x = false := by
      split
      · rfl
      · simp [rowsHas, beq_eq_false_iff_ne.mpr (Ne.symm h)]
    rw [this, Bool.or_false]
  · exact processTarget_chunkCount_other env fid m s b x h

lemma processTarget_postSync_all (env : SyncEnv) (fid : Nat) (m : Meta)
    (s : DBState) (b x : String) :
    postSync env fid s x → postSync env fid (processTarget env fid m s b).state x := by
  by_cases hxb : x = b
  · subst hxb
    intro _
    exact processTarget_postSync_self env fid m s x
  · exact processTarget_postSync_frame env fid m s b x hxb

lemma runTargets_nil (env : SyncEnv) (fid : Nat) (vm : List (String × Meta))
    (s : DBState) : runTargets env fid vm s [] = s := rfl

lemma runTargets_cons (env : SyncEnv) (fid : Nat) (vm : List (String × Meta))
    (s : DBState) (b : String) (ts : List String) :
    runTargets env fid vm s (b :: ts) =
      runTargets env fid vm (processTarget env fid (metaOf vm b) s b).state ts :=
  rfl

lemma runTargets_postSync_all (env : SyncEnv) (fid : Nat)
    (vm : List (String × Meta)) (ts : List String) (s : DBState) (x : String) :
    postSync env fid s x → postSync env fid (runTargets env fid vm s ts) x := by
  induction ts generalizing s with
  | nil => exact fun h => h
  | cons b ts ih =>
    intro h
    rw [runTargets_cons]
    exact ih _ (processTarget_postSync_all env fid (metaOf vm b) s b x h)

lemma runTargets_postSync_mem (env : SyncEnv) (fid : Nat)
    (vm : List (String × Meta)) (ts : List String) (s : DBState) :
    ∀ b ∈ ts, postSync env fid (runTargets env fid vm s ts) b := by
  induction ts generalizing s with
  | nil => intro b hb; cases hb
  | cons c ts ih =>
    intro b hb
    rw [runTargets_cons]
    rcases List.mem_cons.mp hb with hb | hb
    · subst hb
      exact runTargets_postSync_all env fid vm ts _ b
        (processTarget_postSync_self env fid (metaOf vm b) s b)
    · exact ih _ b hb

lemma processTarget_stable (env : SyncEnv) (fid : Nat) (m : Meta)
    (s : DBState) (b : String) (h : postSync env fid s b) :
    (processTarget env fid m s b).state.favorite_videos = s.favorite_videos ∧
    ∀ x, chunkCount (processTarget env fid m s b).state x = chunkCount s x := by
  obtain ⟨hrow, hinv⟩ := h
  have hgc : globalCount s b ≠ 0 := globalCount_ne_zero_of_hasRow s fid b hrow
  constructor
  · rw [processTarget_favorite_videos, hrow]
    simp
  · intro x
    by_cases hxb : x = b
    · subst hxb
      by_cases hr : shouldRefreshCache (findCache s x) = true
      · by_cases hsu : shouldUpdate (oldContentOf (findCache s x))
            (oldSourceOf (findCache s x)) (env.fetch x) = true
        · rcases hinv hr with hdone | hdone
          · rw [hsu] at hdone
            cases hdone
          · rw [processTarget_eq_refresh_update env fid m s x hr hsu,
              chunkCount_addMembership, chunkCount_ragReindex_self, hdone]
            rfl
        · rw [processTarget_eq_refresh_noupdate_pos env fid m s x hr
            (Bool.eq_false_iff.mpr hsu) hgc, chunkCount_addMembership]
      · rw [processTarget_eq_noop env fid m s x (Bool.eq_false_iff.mpr hr) hgc,
          chunkCount_addMembership]
    · exact processTarget_chunkCount_other env fid m s b x hxb

lemma runTargets_stable (env : SyncEnv) (fid : Nat)
    (vm : List (String × Meta)) (ts : List String) (s : DBState)
    (h : ∀ b ∈ ts, postSync env fid s b) :
    (runTargets env fid vm s ts).favorite_videos = s.favorite_videos ∧
    ∀ x, chunkCount (runTargets env fid vm s ts) x = chunkCount s x := by
  induction ts generalizing s with
  | nil => exact ⟨rfl, fun _ => rfl⟩
  | cons b ts ih =>
    rw [runTargets_cons]
    have hb := h b (List.mem_cons_self b ts)
    have hstep := processTarget_stable env fid (metaOf vm b) s b hb
    have hrest : ∀ c ∈ ts, postSync env fid
        (processTarget env fid (metaOf vm b) s b).state c :=
      fun c hc => processTarget_postSync_all env fid (metaOf vm b) s b c
        (h c (List.mem_cons_of_mem b hc))
    obtain ⟨hfv, hck⟩ := ih _ hrest
    exact ⟨hfv.trans hstep.1, fun x => (hck x).trans (hstep.2 x)⟩

lemma runTargets_folders (env : SyncEnv) (fid : Nat)
    (vm : List (String × Meta)) (ts : List String) (s : DBState) :
    (runTargets env fid vm s ts).folders = s.folders := by
  induction ts generalizing s with
  | nil => rfl
  | cons b ts ih =>
    rw [runTargets_cons, ih]
    exact processTarget_folders env fid (metaOf vm b) s b

lemma runTargets_next (env : SyncEnv) (fid : Nat)
    (vm : List (String × Meta)) (ts : List String) (s : DBState) :
    (runTargets env fid vm s ts).next_folder_id = s.next_folder_id := by
  induction ts generalizing s with
  | nil => rfl
  | cons b ts ih =>
    rw [runTargets_cons, ih]
    exact processTarget_next env fid (metaOf vm b) s b

lemma runTargets_favorite_videos_append (env : SyncEnv) (fid : Nat)
    (vm : List (String × Meta)) (ts : List String) (s : DBState) :
    ∃ L, (runTargets env fid vm s ts).favorite_videos =
        s.favorite_videos ++ L ∧
      ∀ r ∈ L, r.folder_id = fid ∧ r.bvid ∈ ts := by
  induction ts generalizing s with
  | nil => exact ⟨[], by simp [runTargets_nil], by simp⟩
  | cons b ts ih =>
    rw [runTargets_cons]
    obtain ⟨L, hL, hP⟩ := ih (processTarget env fid (metaOf vm b) s b).state
    refine ⟨(if hasRow s fid b then [] else [⟨fid, b, true⟩]) ++ L, ?_, ?_⟩
    · rw [hL, processTarget_favorite_videos, List.append_assoc]
    · intro r hr
      rcases List.mem_append.mp hr with h | h
      · by_cases hhb : hasRow s fid b = true
        · rw [if_pos hhb] at h
          cases h
        · rw [if_neg hhb] at h
          rcases List.mem_singleton.mp h with rfl
          exact ⟨rfl, List.mem_cons_self b ts⟩
      · obtain ⟨h1, h2⟩ := hP r h
        exact ⟨h1, List.mem_cons_of_mem b h2⟩

lemma runTargets_findCache_not_mem (env : SyncEnv) (fid : Nat)
    (vm : List (String × Meta)) (ts : List String) (s : DBState) (x : String)
    (hx : x ∉ ts) :
    findCache (runTargets env fid vm s ts) x = findCache s x := by
  induction ts generalizing s with
  | nil => rfl
  | cons b ts ih =>
    rw [runTargets_cons,
      ih _ (fun h => hx (List.mem_cons_of_mem b h)),
      processTarget_findCache_other env fid (metaOf vm b) s b x
        (fun h => hx (h ▸ List.mem_cons_self b ts))]

lemma runTargets_chunkCount_not_mem (env : SyncEnv) (fid : Nat)
    (vm : List (String × Meta)) (ts : List String) (s : DBState) (x : String)
    (hx : x ∉ ts) :
    chunkCount (runTargets env fid vm s ts) x = chunkCount s x := by
  induction ts generalizing s with
  | nil => rfl
  | cons b ts ih =>
    rw [runTargets_cons,
      ih _ (fun h => hx (List.mem_cons_of_mem b h)),
      processTarget_chunkCount_other env fid (metaOf vm b) s b x
        (fun h => hx (h ▸ List.mem_cons_self b ts))]

lemma processTarget_hasRow_iff (env : SyncEnv) (fid : Nat) (m : Meta)
    (s : DBState) (b x : String) :
    hasRow (processTarget env fid m s b).state fid x = true ↔
      (hasRow s fid x = true ∨ x = b) := by
  unfold hasRow
  rw [processTarget_favorite_videos, rowsHas_append]
  by_cases hb : hasRow s fid b = true
  · rw [hb, if_pos rfl]
    show (rowsHas s.favorite_videos fid x || rowsHas [] fid x) = true ↔ _
    simp only [rowsHas, List.any_nil, Bool.or_false, List.any_eq_true]
    constructor
    · intro h
      exact Or.inl h
    · rintro (h | rfl)
      · exact h
      · simpa [hasRow, rowsHas, List.any_eq_true] using hb
  · rw [Bool.eq_false_iff.mpr hb]
    simp only [Bool.false_eq_true, if_false]
    show (rowsHas s.favorite_videos fid x ||
        rowsHas [⟨fid, b, true⟩] fid x) = true ↔ _
    simp only [rowsHas, List.any_cons, List.any_nil, Bool.or_false,
      Bool.or_eq_true, List.any_eq_true]
    constructor
    · rintro (h | h)
      · exact Or.inl h
      · simp only [Bool.and_eq_true, beq_iff_eq] at h
        exact Or.inr h.2.symm
    · rintro (h | rfl)
      · exact Or.inl h
      · exact Or.inr (by simp)

lemma runTargets_hasRow_iff (env : SyncEnv) (fid : Nat)
    (vm : List (String × Meta)) (ts : List String) (s : DBState) (x : String) :
    hasRow (runTargets env fid vm s ts) fid x = true ↔
      (hasRow s fid x = true ∨ x ∈ ts) := by
  induction ts generalizing s with
  | nil => simp [runTargets_nil]
  | cons b ts ih =>
    rw [runTargets_cons, ih, processTarget_hasRow_iff]
    constructor
    · rintro ((h | rfl) | h)
      · exact Or.inl h
      · exact Or.inr (List.mem_cons_self x ts)
      · exact Or.inr (List.mem_cons_of_mem b h)
    · rintro (h | h)
      · exact Or.inl (Or.inl h)
      · rcases List.mem_cons.mp h with rfl | h
        · exact Or.inl (Or.inr rfl)
        · exact Or.inr h

lemma upsertAll_cons (p : String × Meta) (vm : List (String × Meta))
    (s : DBState) :
    upsertAll (p :: vm) s = upsertAll vm (upsertVideoCache s p.1 p.2) := rfl

lemma upsertAll_favorite_videos (vm : List (String × Meta)) (s : DBState) :
    (upsertAll vm s).favorite_videos = s.favorite_videos := by
  induction vm generalizing s with
  | nil => rfl
  | cons p vm ih => rw [upsertAll_cons, ih, upsert_favorite_videos]

lemma upsertAll_folders (vm : List (String × Meta)) (s : DBState) :
    (upsertAll vm s).folders = s.folders := by
  induction vm generalizing s with
  | nil => rfl
  | cons p vm ih => rw [upsertAll_cons, ih, upsert_folders]

lemma upsertAll_chunks (vm : List (String × Meta)) (s : DBState) :
    (upsertAll vm s).chunks = s.chunks := by
  induction vm generalizing s with
  | nil => rfl
  | cons p vm ih => rw [upsertAll_cons, ih, upsert_chunks]

lemma upsertAll_next (vm : List (String × Meta)) (s : DBState) :
    (upsertAll vm s).next_folder_id = s.next_folder_id := by
  induction vm generalizing s with
  | nil => rfl
  | cons p vm ih => rw [upsertAll_cons, ih, upsert_next]

lemma cacheView_upsertAll (vm : List (String × Meta)) (s : DBState)
    (x : String) : cacheView (upsertAll vm s) x = cacheView s x := by
  induction vm generalizing s with
  | nil => rfl
  | cons p vm ih => rw [upsertAll_cons, ih, cacheView_upsert]

lemma hasRow_upsertAll (vm : List (String × Meta)) (s : DBState) (fid : Nat)
    (b : String) : hasRow (upsertAll vm s) fid b = hasRow s fid b := by
  unfold hasRow
  rw [upsertAll_favorite_videos]

lemma chunkCount_upsertAll (vm : List (String × Meta)) (s : DBState)
    (x : String) : chunkCount (upsertAll vm s) x = chunkCount s x := by
  rw [chunkCount_eq_cnt, chunkCount_eq_cnt, upsertAll_chunks]

lemma removeChunksStep_folders (fid : Nat) (st : DBState) (b : String) :
    (removeChunksStep fid st b).folders = st.folders := by
  unfold removeChunksStep
  dsimp only
  split <;> rfl

lemma removeChunksStep_favorite_videos (fid : Nat) (st : DBState)
    (b : String) :
    (removeChunksStep fid st b).favorite_videos = st.favorite_videos := by
  unfold removeChunksStep
  dsimp only
  split <;> rfl

lemma removeChunksStep_video_cache (fid : Nat) (st : DBState) (b : String) :
    (removeChunksStep fid st b).video_cache = st.video_cache := by
  unfold removeChunksStep
  dsimp only
  split <;> rfl

lemma removeChunksStep_next (fid : Nat) (st : DBState) (b : String) :
    (removeChunksStep fid st b).next_folder_id = st.next_folder_id := by
  unfold removeChunksStep
  dsimp only
  split <;> rfl

lemma removeChunksStep_chunkCount_other (fid : Nat) (st : DBState)
    (b x : String) (h : x ≠ b) :
    chunkCount (removeChunksStep fid st b) x = chunkCount st x := by
  unfold removeChunksStep
  dsimp only
  split
  · rw [chunkCount_eq_cnt, chunkCount_eq_cnt]
    exact cntChunks_delete_other _ _ _ h
  · rfl

lemma removeChunksStep_chunkCount_self (fid : Nat) (st : DBState)
    (b : String) :
    chunkCount (removeChunksStep fid st b) b =
      (if otherCount st fid b = 0 then 0 else chunkCount st b) := by
  unfold removeChunksStep otherCount
  dsimp only
  split
  · rw [chunkCount_eq_cnt]
    exact cntChunks_delete_self _ _
  · rfl

lemma removeFold_favorite_videos (fid : Nat) (L : List String)
    (s : DBState) :
    (L.foldl (removeChunksStep fid) s).favorite_videos =
      s.favorite_videos := by
  induction L generalizing s with
  | nil => rfl
  | cons b L ih =>
    rw [List.foldl_cons, ih, removeChunksStep_favorite_videos]

lemma removeFold_folders (fid : Nat) (L : List String) (s : DBState) :
    (L.foldl (removeChunksStep fid) s).folders = s.folders := by
  induction L generalizing s with
  | nil => rfl
  | cons b L ih => rw [List.foldl_cons, ih, removeChunksStep_folders]

lemma removeFold_video_cache (fid : Nat) (L : List String) (s : DBState) :
    (L.foldl (removeChunksStep fid) s).video_cache = s.video_cache := by
  induction L generalizing s with
  | nil => rfl
  | cons b L ih => rw [List.foldl_cons, ih, removeChunksStep_video_cache]

lemma removeFold_next (fid : Nat) (L : List String) (s : DBState) :
    (L.foldl (removeChunksStep fid) s).next_folder_id = s.next_folder_id := by
  induction L generalizing s with
  | nil => rfl
  | cons b L ih => rw [List.foldl_cons, ih, removeChunksStep_next]

lemma otherCount_congr (s s' : DBState)
    (h : s'.favorite_videos = s.favorite_videos) (fid : Nat) (b : String) :
    otherCount s' fid b = otherCount s fid b := by
  unfold otherCount
  rw [h]

lemma removeFold_chunkCount_not_mem (fid : Nat) (L : List String)
    (s : DBState) (x : String) (hx : x ∉ L) :
    chunkCount (L.foldl (removeChunksStep fid) s) x = chunkCount s x := by
  induction L generalizing s with
  | nil => rfl
  | cons b L ih =>
    rw [List.foldl_cons, ih _ (fun h => hx (List.mem_cons_of_mem b h)),
      removeChunksStep_chunkCount_other fid s b x
        (fun h => hx (h ▸ List.mem_cons_self b L))]

lemma removeFold_chunkCount_mem (fid : Nat) (L : List String) (s : DBState)
    (x : String) (hx : x ∈ L) :
    chunkCount (L.foldl (removeChunksStep fid) s) x =
      (if otherCount s fid x = 0 then 0 else chunkCount s x) := by
  induction L generalizing s with
  | nil => cases hx
  | cons b L ih =>
    rw [List.foldl_cons]
    have hoc : otherCount (removeChunksStep fid s b) fid x =
        otherCount s fid x :=
      otherCount_congr s _ (removeChunksStep_favorite_videos fid s b) fid x
    by_cases hxb : x = b
    · subst hxb
      by_cases hmem : x ∈ L
      · rw [ih _ hmem, hoc, removeChunksStep_chunkCount_self]
        by_cases ho : otherCount s fid x = 0 <;> simp [ho]
      · rw [removeFold_chunkCount_not_mem fid L _ x hmem,
          removeChunksStep_chunkCount_self]
    · have hmem : x ∈ L := by
        rcases List.mem_cons.mp hx with h | h
        · exact absurd h hxb
        · exact h
      rw [ih _ hmem, hoc,
        removeChunksStep_chunkCount_other fid s b x hxb]

lemma removePhase_folders (fid : Nat) (L : List String) (s : DBState) :
    (removePhase fid L s).folders = s.folders := by
  unfold removePhase
  dsimp only
  split
  · rfl
  · exact removeFold_folders fid L s

lemma removePhase_video_cache (fid : Nat) (L : List String) (s : DBState) :
    (removePhase fid L s).video_cache = s.video_cache := by
  unfold removePhase
  dsimp only
  split
  · rfl
  · exact removeFold_video_cache fid L s

lemma removePhase_next (fid : Nat) (L : List String) (s : DBState) :
    (removePhase fid L s).next_folder_id = s.next_folder_id := by
  unfold removePhase
  dsimp only
  split
  · rfl
  · exact removeFold_next fid L s

lemma removePhase_favorite_videos (fid : Nat) (L : List String)
    (s : DBState) :
    (removePhase fid L s).favorite_videos =
      s.favorite_videos.filter
        (fun r => !(r.folder_id == fid && L.contains r.bvid)) := by
  unfold removePhase
  dsimp only
  split
  · next hL =>
    subst hL
    simp
  · rw [removeFold_favorite_videos]

lemma removePhase_chunkCount (fid : Nat) (L : List String) (s : DBState)
    (x : String) :
    chunkCount (removePhase fid L s) x =
      (if x ∈ L ∧ otherCount s fid x = 0 then 0 else chunkCount s x) := by
  unfold removePhase
  dsimp only
  split
  · next hL =>
    subst hL
    simp
  · show chunkCount { L.foldl (removeChunksStep fid) s with
      favorite_videos := _ } x = _
    rw [chunkCount_eq_cnt]
    show cntChunks (L.foldl (removeChunksStep fid) s).chunks x = _
    by_cases hx : x ∈ L
    · rw [← chunkCount_eq_cnt, removeFold_chunkCount_mem fid L s x hx]
      by_cases ho : otherCount s fid x = 0 <;> simp [hx, ho]
    · rw [← chunkCount_eq_cnt, removeFold_chunkCount_not_mem fid L s x hx]
      simp [hx]

lemma removePhase_hasRow_iff (fid : Nat) (L : List String) (s : DBState)
    (x : String) :
    hasRow (removePhase fid L s) fid x = true ↔
      (hasRow s fid x = true ∧ x ∉ L) := by
  rw [hasRow_iff, hasRow_iff, removePhase_favorite_videos]
  constructor
  · rintro ⟨r, hr, h1, h2⟩
    obtain ⟨hmem, hcond⟩ := List.mem_filter.mp hr
    refine ⟨⟨r, hmem, h1, h2⟩, ?_⟩
    intro hxL
    rw [Bool.not_eq_true', Bool.and_eq_false_iff] at hcond
    rcases hcond with h | h
    · rw [beq_eq_false_iff_ne] at h
      exact h h1
    · have hc : L.contains r.bvid = true := by
        rw [h2]
        simpa using hxL
      rw [hc] at h
      exact Bool.noConfusion h
  · rintro ⟨⟨r, hr, h1, h2⟩, hxL⟩
    refine ⟨r, List.mem_filter.mpr ⟨hr, ?_⟩, h1, h2⟩
    simp only [Bool.not_eq_true', Bool.and_eq_false_iff]
    right
    subst h2
    simpa using hxL

lemma setLastSync_favorite_videos (s : DBState) (fid now : Nat) :
    (setLastSync s fid now).favorite_videos = s.favorite_videos := rfl

lemma setLastSync_video_cache (s : DBState) (fid now : Nat) :
    (setLastSync s fid now).video_cache = s.video_cache := rfl

lemma setLastSync_chunks (s : DBState) (fid now : Nat) :
    (setLastSync s fid now).chunks = s.chunks := rfl

lemma setLastSync_next (s : DBState) (fid now : Nat) :
    (setLastSync s fid now).next_folder_id = s.next_folder_id := rfl

lemma findFolder_congr (s s' : DBState) (h : s'.folders = s.folders)
    (sid : String) (mid : Nat) :
    findFolder s' sid mid = findFolder s sid mid := by
  unfold findFolder
  rw [h]

lemma getOrCreateFolder_favorite_videos (s : DBState) (sid : String)
    (mid : Nat) (t : Option String) (n : Nat) :
    (getOrCreateFolder s sid mid t n).2.favorite_videos =
      s.favorite_videos := by
  unfold getOrCreateFolder
  cases findFolder s sid mid <;> rfl

lemma getOrCreateFolder_video_cache (s : DBState) (sid : String)
    (mid : Nat) (t : Option String) (n : Nat) :
    (getOrCreateFolder s sid mid t n).2.video_cache = s.video_cache := by
  unfold getOrCreateFolder
  cases findFolder s sid mid <;> rfl

lemma getOrCreateFolder_chunks (s : DBState) (sid : String) (mid : Nat)
    (t : Option String) (n : Nat) :
    (getOrCreateFolder s sid mid t n).2.chunks = s.chunks := by
  unfold getOrCreateFolder
  cases findFolder s sid mid <;> rfl

lemma find?_map_upd (p : FavoriteFolder → Bool) (l : List FavoriteFolder)
    (f f' : FavoriteFolder) (hf : l.find? p = some f) (hp' : p f' = true) :
    (l.map (fun g => if g.id == f.id then f' else g)).find? p = some f' := by
  induction l with
  | nil => cases hf
  | cons g l ih =>
    rw [List.map_cons]
    by_cases hpg : p g = true
    · simp only [List.find?_cons, hpg] at hf
      have hgf : g = f := Option.some.inj hf
      subst hgf
      have hid : (g.id == g.id) = true := by simp
      rw [hid]
      simp [List.find?_cons, hp']
    · have hpg' := Bool.eq_false_iff.mpr hpg
      simp only [List.find?_cons, hpg'] at hf
      by_cases hid : (g.id == f.id) = true
      · rw [hid]
        simp [List.find?_cons, hp']
      · rw [Bool.eq_false_iff.mpr hid]
        simp only [Bool.false_eq_true, if_false, List.find?_cons, hpg']
        exact ih hf

lemma findFolder_after_getOrCreate (s : DBState) (sid : String) (mid : Nat)
    (t : Option String) (n : Nat) :
    findFolder (getOrCreateFolder s sid mid t n).2 sid mid =
      some (getOrCreateFolder s sid mid t n).1 := by
  unfold getOrCreateFolder
  cases hf : findFolder s sid mid with
  | none =>
    dsimp only
    unfold findFolder at hf ⊢
    rw [List.find?_append, hf]
    simp [List.find?]
  | some f =>
    dsimp only
    unfold findFolder at hf ⊢
    have hp := List.find?_some hf
    apply find?_map_upd _ s.folders f _ hf
    simp only [Bool.and_eq_true, beq_iff_eq] at hp
    show (f.session_id == sid && f.media_id == mid) = true
    simp [hp.1, hp.2]

lemma getOrCreateFolder_fst_id_of_found (s : DBState) (sid : String)
    (mid : Nat) (t : Option String) (n : Nat) (f : FavoriteFolder)
    (hf : findFolder s sid mid = some f) :
    (getOrCreateFolder s sid mid t n).1.id = f.id := by
  unfold getOrCreateFolder
  rw [hf]

lemma findFolder_setLastSync (s : DBState) (fid now : Nat) (sid : String)
    (mid : Nat) :
    findFolder (setLastSync s fid now) sid mid =
      (findFolder s sid mid).map (fun f =>
        if f.id == fid then { f with last_sync_at := some now } else f) := by
  unfold setLastSync findFolder
  have hpf : ((fun f : FavoriteFolder =>
      (f.session_id == sid && f.media_id == mid)) ∘
      (fun f => if f.id == fid then { f with last_sync_at := some now }
        else f)) =
      (fun f : FavoriteFolder => (f.session_id == sid && f.media_id == mid)) := by
    funext f
    by_cases hid : f.id = fid <;> simp [hid]
  rw [List.find?_map, hpf]

lemma chunkCount_congr (s s' : DBState) (h : s'.chunks = s.chunks)
    (x : String) : chunkCount s' x = chunkCount s x := by
  rw [chunkCount_eq_cnt, chunkCount_eq_cnt, h]

lemma otherCount_append_rows (s : DBState) (L : List FavoriteVideo)
    (fid : Nat) (b : String) (hL : ∀ r ∈ L, r.folder_id = fid)
    (s' : DBState) (hs' : s'.favorite_videos = s.favorite_videos ++ L) :
    otherCount s' fid b = otherCount s fid b := by
  unfold otherCount
  rw [hs', List.filter_append]
  have : L.filter (fun r => r.bvid == b && r.folder_id != fid) = [] := by
    rw [List.filter_eq_nil_iff]
    intro r hr
    rw [hL r hr]
    simp
  rw [this, List.append_nil]

lemma shouldRefresh_false_of_good_asr (cache : Option VideoCache)
    (hsrc : oldSourceOf cache = some "asr")
    (hlen : 50 ≤ (oldContentOf cache).length) :
    shouldRefreshCache cache = false := by
  cases cache with
  | none => cases hsrc
  | some c =>
    have hsrc' : c.content_source = some "asr" := by
      simpa [oldSourceOf] using hsrc
    have hlen' : 50 ≤ (pyStrip (c.content.getD "")).length := by
      simpa [oldContentOf] using hlen
    rw [show shouldRefreshCache (some c) =
      (if (pyStrip (c.content.getD "")).length < 50 then true
       else match c.content_source with
         | none => true
         | some src => (decide (src = "") || decide (src = "basic_info")))
      from rfl]
    rw [if_neg (by omega), hsrc']
    rfl

lemma isAsrCacheUsable_true_of_good_asr (cache : Option VideoCache)
    (hsrc : oldSourceOf cache = some "asr")
    (hlen : 50 ≤ (oldContentOf cache).length) :
    isAsrCacheUsable cache = true := by
  cases cache with
  | none => cases hsrc
  | some c =>
    have hsrc' : c.content_source = some "asr" := by
      simpa [oldSourceOf] using hsrc
    have hlen' : 50 ≤ (pyStrip (c.content.getD "")).length := by
      simpa [oldContentOf] using hlen
    rw [show isAsrCacheUsable (some c) =
      (if c.content_source ≠ some "asr" then false
       else decide (50 ≤ (pyStrip (c.content.getD "")).length)) from rfl]
    rw [if_neg (by simp [hsrc'])]
    exact decide_eq_true hlen'

lemma processTarget_cacheView_good_asr (env : SyncEnv) (fid : Nat) (m : Meta)
    (s : DBState) (c b : String)
    (hsrc : oldSourceOf (findCache s b) = some "asr")
    (hlen : 50 ≤ (oldContentOf (findCache s b)).length) :
    cacheView (processTarget env fid m s c).state b = cacheView s b := by
  by_cases hcb : c = b
  · subst hcb
    have hr : shouldRefreshCache (findCache s c) = false :=
      shouldRefresh_false_of_good_asr _ hsrc hlen
    by_cases hgc : globalCount s c = 0
    · have ha : isAsrCacheUsable (findCache s c) = true :=
        isAsrCacheUsable_true_of_good_asr _ hsrc hlen
      rw [processTarget_eq_rebuild_asr env fid m s c hr hgc ha]
      have hfc : findCache (addMembership (ragReindex env (markProcessed s c)
          c ⟨c, m.title, oldContentOf (findCache s c), .asr,
            ((findCache s c).map (·.outline_json)).join⟩) fid c) c =
          findCache (markProcessed s c) c := by
        rw [findCache_addMembership, findCache_ragReindex]
      exact (cacheView_of_findCache_eq _ _ _ hfc).trans (cacheView_mark_self s c)
    · rw [processTarget_eq_noop env fid m s c hr hgc]
      exact cacheView_of_findCache_eq _ _ _ (findCache_addMembership s fid c c)
  · exact cacheView_of_findCache_eq _ _ _
      (processTarget_findCache_other env fid m s c b (Ne.symm hcb))

lemma runTargets_cacheView_good_asr (env : SyncEnv) (fid : Nat)
    (vm : List (String × Meta)) (ts : List String) (s : DBState) (b : String)
    (hsrc : oldSourceOf (findCache s b) = some "asr")
    (hlen : 50 ≤ (oldContentOf (findCache s b)).length) :
    cacheView (runTargets env fid vm s ts) b = cacheView s b := by
  induction ts generalizing s with
  | nil => rfl
  | cons c ts ih =>
    rw [runTargets_cons]
    have hstep := processTarget_cacheView_good_asr env fid (metaOf vm c) s c b
      hsrc hlen
    have hsrc' : oldSourceOf (findCache
        (processTarget env fid (metaOf vm c) s c).state b) = some "asr" := by
      have h2 := congrArg Prod.snd hstep
      unfold cacheView at h2
      dsimp only at h2
      rw [h2]
      exact hsrc
    have hlen' : 50 ≤ (oldContentOf (findCache
        (processTarget env fid (metaOf vm c) s c).state b)).length := by
      have h1 := congrArg Prod.fst hstep
      unfold cacheView at h1
      dsimp only at h1
      rw [h1]
      exact hlen
    exact (ih _ hsrc' hlen').trans hstep

lemma cacheView_congr (s s' : DBState)
    (h : s'.video_cache = s.video_cache) (b : String) :
    cacheView s' b = cacheView s b := by
  unfold cacheView oldContentOf oldSourceOf findCache
  rw [h]

lemma mem_updateCandidates (s : DBState) (cur ex : List String) (b : String)
    (hb : b ∈ updateCandidates s cur ex) : b ∈ cur := by
  unfold updateCandidates at hb
  exact (List.mem_filter.mp (List.mem_filter.mp hb).1).1

lemma stripChunks_eq (a b : DBState) (h1 : a.folders = b.folders)
    (h2 : a.favorite_videos = b.favorite_videos)
    (h3 : a.video_cache = b.video_cache)
    (h4 : a.next_folder_id = b.next_folder_id) :
    stripChunks a = stripChunks b := by
  unfold stripChunks
  cases a
  cases b
  simp_all

lemma stripChunks_folders (a : DBState) : (stripChunks a).folders = a.folders :=
  rfl

lemma stripChunks_favorite_videos (a : DBState) :
    (stripChunks a).favorite_videos = a.favorite_videos := rfl

lemma stripChunks_video_cache (a : DBState) :
    (stripChunks a).video_cache = a.video_cache := rfl

lemma stripChunks_next (a : DBState) :
    (stripChunks a).next_folder_id = a.next_folder_id := rfl

lemma stripChunks_inj_folders (a b : DBState)
    (h : stripChunks a = stripChunks b) : a.folders = b.folders := by
  have h2 := congrArg DBState.folders h
  rw [stripChunks_folders, stripChunks_folders] at h2
  exact h2

lemma stripChunks_inj_favorite_videos (a b : DBState)
    (h : stripChunks a = stripChunks b) :
    a.favorite_videos = b.favorite_videos := by
  have h2 := congrArg DBState.favorite_videos h
  rw [stripChunks_favorite_videos, stripChunks_favorite_videos] at h2
  exact h2

lemma stripChunks_inj_video_cache (a b : DBState)
    (h : stripChunks a = stripChunks b) : a.video_cache = b.video_cache := by
  have h2 := congrArg DBState.video_cache h
  rw [stripChunks_video_cache, stripChunks_video_cache] at h2
  exact h2

lemma stripChunks_inj_next (a b : DBState)
    (h : stripChunks a = stripChunks b) :
    a.next_folder_id = b.next_folder_id := by
  have h2 := congrArg DBState.next_folder_id h
  rw [stripChunks_next, stripChunks_next] at h2
  exact h2

lemma stripChunks_write (X X' : DBState) (b : String) (v : VideoContent)
    (h : stripChunks X = stripChunks X') :
    stripChunks (writeCacheContent X b v) =
      stripChunks (writeCacheContent X' b v) := by
  have hvc := stripChunks_inj_video_cache X X' h
  refine stripChunks_eq _ _ ?_ ?_ ?_ ?_
  · exact stripChunks_inj_folders X X' h
  · exact stripChunks_inj_favorite_videos X X' h
  · show X.video_cache.map _ = X'.video_cache.map _
    rw [hvc]
  · exact stripChunks_inj_next X X' h

lemma stripChunks_mark (X X' : DBState) (b : String)
    (h : stripChunks X = stripChunks X') :
    stripChunks (markProcessed X b) = stripChunks (markProcessed X' b) := by
  have hvc := stripChunks_inj_video_cache X X' h
  refine stripChunks_eq _ _ ?_ ?_ ?_ ?_
  · exact stripChunks_inj_folders X X' h
  · exact stripChunks_inj_favorite_videos X X' h
  · show X.video_cache.map _ = X'.video_cache.map _
    rw [hvc]
  · exact stripChunks_inj_next X X' h

lemma stripChunks_ragReindex (env env' : SyncEnv) (X X' : DBState)
    (b : String) (v : VideoContent) (h : stripChunks X = stripChunks X') :
    stripChunks (ragReindex env X b v) =
      stripChunks (ragReindex env' X' b v) := by
  refine stripChunks_eq _ _ ?_ ?_ ?_ ?_
  · rw [ragReindex_folders, ragReindex_folders]
    exact stripChunks_inj_folders X X' h
  · rw [ragReindex_favorite_videos, ragReindex_favorite_videos]
    exact stripChunks_inj_favorite_videos X X' h
  · rw [ragReindex_video_cache, ragReindex_video_cache]
    exact stripChunks_inj_video_cache X X' h
  · rw [ragReindex_next, ragReindex_next]
    exact stripChunks_inj_next X X' h

lemma stripChunks_addMembership (X X' : DBState) (fid : Nat) (b : String)
    (h : stripChunks X = stripChunks X') :
    stripChunks (addMembership X fid b) =
      stripChunks (addMembership X' fid b) := by
  have hfv := stripChunks_inj_favorite_videos X X' h
  refine stripChunks_eq _ _ ?_ ?_ ?_ ?_
  · rw [addMembership_folders, addMembership_folders]
    exact stripChunks_inj_folders X X' h
  · rw [addMembership_favorite_videos, addMembership_favorite_videos, hfv,
      hasRow_congr X' X hfv]
  · rw [addMembership_video_cache, addMembership_video_cache]
    exact stripChunks_inj_video_cache X X' h
  · rw [addMembership_next, addMembership_next]
    exact stripChunks_inj_next X X' h

lemma processTarget_stripChunks_addOk (env : SyncEnv) (g : String → Bool)
    (fid : Nat) (m : Meta) (s s' : DBState) (b : String)
    (h : stripChunks s = stripChunks s') :
    stripChunks (processTarget env fid m s b).state =
      stripChunks (processTarget { env with addOk := g } fid m s' b).state := by
  have hvc := stripChunks_inj_video_cache s s' h
  have hfv := stripChunks_inj_favorite_videos s s' h
  have hfc : findCache s' b = findCache s b := by
    unfold findCache
    rw [hvc]
  have hgc : globalCount s' b = globalCount s b := by
    unfold globalCount
    rw [hfv]
  have hoc : oldContentOf (findCache s' b) = oldContentOf (findCache s b) :=
    congrArg _ hfc
  have hos : oldSourceOf (findCache s' b) = oldSourceOf (findCache s b) :=
    congrArg _ hfc
  by_cases hr : shouldRefreshCache (findCache s b) = true
  · have hr' : shouldRefreshCache (findCache s' b) = true := by
      rw [hfc]
      exact hr
    by_cases hsu : shouldUpdate (oldContentOf (findCache s b))
        (oldSourceOf (findCache s b)) (env.fetch b) = true
    · have hsu' : shouldUpdate (oldContentOf (findCache s' b))
          (oldSourceOf (findCache s' b))
          (({ env with addOk := g } : SyncEnv).fetch b) = true := by
        rw [hoc, hos]
        exact hsu
      rw [processTarget_eq_refresh_update env fid m s b hr hsu,
        processTarget_eq_refresh_update { env with addOk := g } fid m s' b
          hr' hsu']
      apply stripChunks_addMembership
      apply stripChunks_ragReindex
      rw [hfc]
      by_cases hsome : (findCache s b).isSome = true
      · rw [if_pos hsome, if_pos hsome]
        exact stripChunks_write s s' b (env.fetch b) h
      · rw [if_neg hsome, if_neg hsome]
        exact h
    · have hsu' : shouldUpdate (oldContentOf (findCache s' b))
          (oldSourceOf (findCache s' b))
          (({ env with addOk := g } : SyncEnv).fetch b) = false := by
        rw [hoc, hos]
        exact Bool.eq_false_iff.mpr hsu
      by_cases hgz : globalCount s b = 0
      · rw [processTarget_eq_refresh_noupdate_zero env fid m s b hr
          (Bool.eq_false_iff.mpr hsu) hgz,
          processTarget_eq_refresh_noupdate_zero { env with addOk := g }
            fid m s' b hr' hsu' (hgc.trans hgz)]
        exact stripChunks_addMembership _ _ fid b
          (stripChunks_ragReindex env _ s s' b _ h)
      · rw [processTarget_eq_refresh_noupdate_pos env fid m s b hr
          (Bool.eq_false_iff.mpr hsu) hgz,
          processTarget_eq_refresh_noupdate_pos { env with addOk := g }
            fid m s' b hr' hsu' (fun hc => hgz (hgc.symm.trans hc))]
        exact stripChunks_addMembership s s' fid b h
  · have hr' : shouldRefreshCache (findCache s' b) = false := by
      rw [hfc]
      exact Bool.eq_false_iff.mpr hr
    by_cases hgz : globalCount s b = 0
    · by_cases ha : isAsrCacheUsable (findCache s b) = true
      · have ha' : isAsrCacheUsable (findCache s' b) = true := by
          rw [hfc]
          exact ha
        rw [processTarget_eq_rebuild_asr env fid m s b
          (Bool.eq_false_iff.mpr hr) hgz ha,
          processTarget_eq_rebuild_asr { env with addOk := g } fid m s' b
            hr' (hgc.trans hgz) ha']
        rw [hfc]
        exact stripChunks_addMembership _ _ fid b
          (stripChunks_ragReindex env _ _ _ b _ (stripChunks_mark s s' b h))
      · have ha' : isAsrCacheUsable (findCache s' b) = false := by
          rw [hfc]
          exact Bool.eq_false_iff.mpr ha
        rw [processTarget_eq_rebuild_fetch env fid m s b
          (Bool.eq_false_iff.mpr hr) hgz (Bool.eq_false_iff.mpr ha),
          processTarget_eq_rebuild_fetch { env with addOk := g } fid m s' b
            hr' (hgc.trans hgz) ha']
        apply stripChunks_addMembership
        apply stripChunks_ragReindex
        rw [hfc]
        by_cases hsome : (findCache s b).isSome = true
        · rw [if_pos hsome, if_pos hsome]
          exact stripChunks_write s s' b (env.fetch b) h
        · rw [if_neg hsome, if_neg hsome]
          exact h
    · rw [processTarget_eq_noop env fid m s b (Bool.eq_false_iff.mpr hr) hgz,
        processTarget_eq_noop { env with addOk := g } fid m s' b hr'
          (fun hc => hgz (hgc.symm.trans hc))]
      exact stripChunks_addMembership s s' fid b h

lemma runTargets_stripChunks_addOk (env : SyncEnv) (g : String → Bool)
    (fid : Nat) (vm : List (String × Meta)) (ts : List String)
    (s s' : DBState) (h : stripChunks s = stripChunks s') :
    stripChunks (runTargets env fid vm s ts) =
      stripChunks (runTargets { env with addOk := g } fid vm s' ts) := by
  induction ts generalizing s s' with
  | nil => exact h
  | cons b ts ih =>
    rw [runTargets_cons, runTargets_cons]
    exact ih _ _ (processTarget_stripChunks_addOk env g fid (metaOf vm b)
      s s' b h)

lemma stripChunks_removePhase (fid : Nat) (L : List String) (s s' : DBState)
    (h : stripChunks s = stripChunks s') :
    stripChunks (removePhase fid L s) = stripChunks (removePhase fid L s') := by
  refine stripChunks_eq _ _ ?_ ?_ ?_ ?_
  · rw [removePhase_folders, removePhase_folders]
    exact stripChunks_inj_folders s s' h
  · rw [removePhase_favorite_videos, removePhase_favorite_videos]
    rw [stripChunks_inj_favorite_videos s s' h]
  · rw [removePhase_video_cache, removePhase_video_cache]
    exact stripChunks_inj_video_cache s s' h
  · rw [removePhase_next, removePhase_next]
    exact stripChunks_inj_next s s' h

lemma stripChunks_setLastSync (fid now : Nat) (s s' : DBState)
    (h : stripChunks s = stripChunks s') :
    stripChunks (setLastSync s fid now) =
      stripChunks (setLastSync s' fid now) := by
  have hfo := stripChunks_inj_folders s s' h
  have hfv := stripChunks_inj_favorite_videos s s' h
  have hvc := stripChunks_inj_video_cache s s' h
  have hnx := stripChunks_inj_next s s' h
  refine stripChunks_eq _ _ ?_ ?_ ?_ ?_
  · show s.folders.map _ = s'.folders.map _
    rw [hfo]
  · exact hfv
  · exact hvc
  · exact hnx

lemma folderBvids_congr (s s' : DBState)
    (h : s'.favorite_videos = s.favorite_videos) (fid : Nat) :
    folderBvids s' fid = folderBvids s fid := by
  unfold folderBvids
  rw [h]

/-- Unfolding equation for the non-anomalous sync body. -/
lemma syncBody_eq (env : SyncEnv) (s : DBState) (sid : String) (fid : Nat)
    (excl : List String) :
    syncBody env s sid fid excl =
      (let vm := buildVideoMap excl env.videos
       let P := getOrCreateFolder s sid fid (env.info.getD {}).title vm.length
       let existing := existingBvids P.2 P.1.id
       let addedL := (vm.map (·.1)).filter (fun b => !(existing.contains b))
       let removedL := existing.filter (fun b => !((vm.map (·.1)).contains b))
       let s2 := upsertAll vm P.2
       let targets := addedL ++ updateCandidates s2 (vm.map (·.1)) existing
       let s5 := setLastSync (removePhase P.1.id removedL
           (runTargets env P.1.id vm s2 targets)) P.1.id env.now
       ({ folder_id := fid, total := vm.length, added := addedL.length,
          removed := removedL.length,
          indexed := (folderBvids s5 P.1.id).dedup.length,
          message := "同步完成", last_sync_at := some env.now }, s5)) := rfl

lemma contains_true_of_mem (l : List String) (b : String) (h : b ∈ l) :
    l.contains b = true := by
  simpa using h

lemma syncBody_second_run_basis (env : SyncEnv) (s : DBState) (sid : String)
    (fid : Nat) (excl : List String) :
    (∀ b, hasRow (syncBody env s sid fid excl).2
        (getOrCreateFolder s sid fid (env.info.getD {}).title
          (buildVideoMap excl env.videos).length).1.id b = true ↔
        b ∈ (buildVideoMap excl env.videos).map (·.1)) ∧
    (∃ f, findFolder (syncBody env s sid fid excl).2 sid fid = some f ∧
      f.id = (getOrCreateFolder s sid fid (env.info.getD {}).title
        (buildVideoMap excl env.videos).length).1.id) ∧
    (∀ b ∈ (buildVideoMap excl env.videos).map (·.1),
      postSync env (getOrCreateFolder s sid fid (env.info.getD {}).title
        (buildVideoMap excl env.videos).length).1.id
        (syncBody env s sid fid excl).2 b) := by
  set vm := buildVideoMap excl env.videos with hvm
  set P := getOrCreateFolder s sid fid (env.info.getD {}).title vm.length
    with hP
  set existing := existingBvids P.2 P.1.id with hex
  set addedL := (vm.map (·.1)).filter (fun c => !(existing.contains c))
    with hadd
  set removedL := existing.filter (fun c => !((vm.map (·.1)).contains c))
    with hrem
  set s2 := upsertAll vm P.2 with hs2
  set targets := addedL ++ updateCandidates s2 (vm.map (·.1)) existing
    with htg
  set s3 := runTargets env P.1.id vm s2 targets with hs3
  set s4 := removePhase P.1.id removedL s3 with hs4
  set s5 := setLastSync s4 P.1.id env.now with hs5
  have hstate : (syncBody env s sid fid excl).2 = s5 := by
    rw [syncBody_eq]
  rw [hstate]
  have hmem_add : ∀ b, b ∈ addedL ↔ (b ∈ vm.map (·.1) ∧ b ∉ existing) := by
    intro b
    rw [hadd]
    simp [List.mem_filter]
  have hmem_rem : ∀ b, b ∈ removedL ↔
      (b ∈ existing ∧ b ∉ vm.map (·.1)) := by
    intro b
    rw [hrem]
    simp [List.mem_filter]
  have hmem_tg : ∀ b, b ∈ targets → b ∈ vm.map (·.1) := by
    intro b hb
    rw [htg] at hb
    rcases List.mem_append.mp hb with h | h
    · exact ((hmem_add b).mp h).1
    · exact mem_updateCandidates s2 _ existing b h
  have hrow2 : ∀ b, hasRow s2 P.1.id b = hasRow P.2 P.1.id b := by
    intro b
    rw [hs2]
    exact hasRow_upsertAll vm P.2 P.1.id b
  have hrow5 : ∀ b, hasRow s5 P.1.id b = true ↔ b ∈ vm.map (·.1) := by
    intro b
    rw [hs5, hasRow_congr s4 _ (setLastSync_favorite_videos s4 P.1.id env.now),
      hs4, removePhase_hasRow_iff, hs3, runTargets_hasRow_iff, hrow2 b,
      ← mem_existingBvids, ← hex]
    constructor
    · rintro ⟨hbe | hbt, hnr⟩
      · by_contra hbc
        exact hnr ((hmem_rem b).mpr ⟨hbe, hbc⟩)
      · exact hmem_tg b hbt
    · intro hc
      refine ⟨?_, fun hr => ((hmem_rem b).mp hr).2 hc⟩
      by_cases hbe : b ∈ existing
      · exact Or.inl hbe
      · refine Or.inr ?_
        rw [htg]
        exact List.mem_append_left _ ((hmem_add b).mpr ⟨hc, hbe⟩)
  refine ⟨hrow5, ?_, ?_⟩
  · refine ⟨{ P.1 with last_sync_at := some env.now }, ?_, rfl⟩
    rw [hs5, findFolder_setLastSync, hs4,
      findFolder_congr s3 _ (removePhase_folders P.1.id removedL s3), hs3,
      findFolder_congr s2 _ (runTargets_folders env P.1.id vm targets s2),
      hs2, findFolder_congr P.2 _ (upsertAll_folders vm P.2), hP,
      findFolder_after_getOrCreate]
    simp
  · intro b hb
    have h3 : postSync env P.1.id s3 b := by
      by_cases hbt : b ∈ targets
      · rw [hs3]
        exact runTargets_postSync_mem env P.1.id vm targets s2 b hbt
      · have hbe : b ∈ existing := by
          by_cases hbe : b ∈ existing
          · exact hbe
          · refine absurd ?_ hbt
            rw [htg]
            exact List.mem_append_left _ ((hmem_add b).mpr ⟨hb, hbe⟩)
        have hrw : hasRow s2 P.1.id b = true := by
          rw [hrow2 b, ← mem_existingBvids, ← hex]
          exact hbe
        have hrefresh : shouldRefreshCache (findCache s2 b) = false := by
          by_contra hr
          rw [Bool.not_eq_false] at hr
          apply hbt
          rw [htg]
          refine List.mem_append_right _ ?_
          unfold updateCandidates
          refine List.mem_filter.mpr ⟨List.mem_filter.mpr ⟨hb, ?_⟩, hr⟩
          exact contains_true_of_mem existing b hbe
        have h2 : postSync env P.1.id s2 b := by
          refine ⟨hrw, fun habs => ?_⟩
          rw [hrefresh] at habs
          cases habs
        rw [hs3]
        exact runTargets_postSync_all env P.1.id vm targets s2 b h2
    have hnr : b ∉ removedL := fun hr => ((hmem_rem b).mp hr).2 hb
    have h4 : postSync env P.1.id s4 b := by
      rw [hs4]
      refine postSync_of_views env P.1.id s3 _ b ?_ ?_ ?_ h3
      · exact cacheView_congr s3 _
          (removePhase_video_cache P.1.id removedL s3) b
      · have ht3 : hasRow s3 P.1.id b = true := h3.1
        have ht4 : hasRow (removePhase P.1.id removedL s3) P.1.id b = true :=
          (removePhase_hasRow_iff P.1.id removedL s3 b).mpr ⟨ht3, hnr⟩
        rw [ht3, ht4]
      · rw [removePhase_chunkCount]
        rw [if_neg (fun hc => hnr hc.1)]
    rw [hs5]
    refine postSync_of_views env P.1.id s4 _ b ?_ ?_ ?_ h4
    · exact cacheView_congr s4 _ (setLastSync_video_cache s4 P.1.id env.now) b
    · exact hasRow_congr s4 _
        (setLastSync_favorite_videos s4 P.1.id env.now) P.1.id b
    · exact chunkCount_congr s4 _ (setLastSync_chunks s4 P.1.id env.now) b

end Lemmas

/-- If the ASR tier yields nothing, `fetch_content` lands on `basic_info`
(either the error placeholder or the title/description fallback). -/
lemma fetch_content_basic_of_tryAsr_none (env : FetchEnv) (bvid : String)
    (cid : Option Nat) (title : Option String) (h : tryAsr env = none) :
    (fetch_content env bvid cid title).source = .basic_info := by
  unfold fetch_content fetchRest
  by_cases hn : needInfo cid title = true
  · simp only [hn, if_true]
    cases hv : env.video_info with
    | none => rfl
    | some vi => simp [h, truthyStr]
  · simp only [hn]
    simp [h, truthyStr]

/-- **C1** (code bug): on an anomalous empty listing the sync mutates
nothing and returns `added = 0`, `removed = 0` with the skip message, as
claimed — but the returned `indexed` filters membership rows on the
remote media id (77) instead of the folder's DB id (1), so it reports 0
even though the collection has 2 previously stored membership rows. -/
theorem syncFolder_anomalous_wrong_indexed :
    (syncFolder envAnom dbAnom "s" 77 []).2 = dbAnom ∧
    (syncFolder envAnom dbAnom "s" 77 []).1.added = 0 ∧
    (syncFolder envAnom dbAnom "s" 77 []).1.removed = 0 ∧
    (syncFolder envAnom dbAnom "s" 77 []).1.message = "本次同步异常：空列表，已跳过" ∧
    (folderBvids dbAnom 1).length = 2 ∧
    (syncFolder envAnom dbAnom "s" 77 []).1.indexed = 0 := by
  refine ⟨by decide, by decide, by decide, by decide, by decide, by decide⟩

/-- **C2 counterexample**: video "A" has zero indexed chunks anywhere,
yet because a membership row exists (`global_count = 1`) and the fetched
content equals the cache, the targets-loop step neither replaces the
cache nor triggers re-indexing — refuting "re-indexing iff the cache was
replaced or the video has zero indexed chunks". -/
theorem processTarget_zero_chunks_no_reindex :
    chunkCount dbNoReindex "A" = 0 ∧
    (processTarget envNoReindex 1 { title := "t" } dbNoReindex "A").replaced = false ∧
    (processTarget envNoReindex 1 { title := "t" } dbNoReindex "A").reindexed = false ∧
    (processTarget envNoReindex 1 { title := "t" } dbNoReindex "A").state.chunks = [] := by
  refine ⟨by decide, by decide, by decide, by decide⟩

/-- **C2** (amended): for a target whose cache row exists (as the sync
loop guarantees after the metadata upserts), re-indexing is triggered iff
the cache entry was replaced this cycle or the video has zero membership
rows across all collections (`global_count == 0`): the code gates the
recovery rebuild on membership rows, not on indexed chunks. -/
theorem processTarget_reindex_iff (env : SyncEnv) (fid : Nat) (meta : Meta)
    (s : DBState) (bvid : String) (h : (findCache s bvid).isSome = true) :
    (processTarget env fid meta s bvid).reindexed = true ↔
      (globalCount s bvid = 0 ∨
        (processTarget env fid meta s bvid).replaced = true) := by
  unfold processTarget
  by_cases hr : shouldRefreshCache (findCache s bvid) = true
  · by_cases hsu : shouldUpdate (oldContentOf (findCache s bvid))
        (oldSourceOf (findCache s bvid)) (env.fetch bvid) = true
    · simp [hr, hsu, h]
    · by_cases hgc : globalCount s bvid = 0
      · simp [hr, Bool.eq_false_iff.mpr hsu, hgc]
      · simp [hr, Bool.eq_false_iff.mpr hsu, hgc, Nat.pos_of_ne_zero hgc]
  · by_cases hgc : globalCount s bvid = 0
    · by_cases ha : isAsrCacheUsable (findCache s bvid) = true
      · simp [Bool.eq_false_iff.mpr hr, hgc, ha]
      · simp [Bool.eq_false_iff.mpr hr, hgc, Bool.eq_false_iff.mpr ha, h]
    · simp [Bool.eq_false_iff.mpr hr, hgc]

/-- Witness for the amended C2 re-index rule. -/
theorem processTarget_reindex_iff_witness :
    (processTarget envNoReindex 1 { title := "t" } dbNoReindex "A").reindexed = true ↔
      (globalCount dbNoReindex "A" = 0 ∨
        (processTarget envNoReindex 1 { title := "t" } dbNoReindex "A").replaced = true) :=
  processTarget_reindex_iff envNoReindex 1 { title := "t" } dbNoReindex "A" (by decide)

/-- **C3 counterexample**: an `asr`-tier cache whose text is under 50
characters is an update candidate; the fetched `basic_info` text differs
from it, so the replace-if-better rule adopts the lower-ranked result and
the stored source rank decreases from 4 (`asr`) to 1 (`basic_info`). -/
theorem syncFolder_rank_decreases :
    ((findCache dbDowngrade "A").map (·.content_source)) = some (some "asr") ∧
    ((findCache (syncFolder envDowngrade dbDowngrade "s" 9 []).2 "A").map
        (·.content_source)) = some (some "basic_info") ∧
    source_priority "basic_info" < source_priority "asr" := by
  refine ⟨by decide, by decide, by decide⟩

/-- **C6**: a transcript under 50 characters is discarded and the fetcher
falls back to `basic_info`; one of length ≥ 50 is returned as the ASR
text, so 49 characters is the largest rejected length. -/
theorem tryAsr_length_threshold (env : FetchEnv) (t : String)
    (hr : env.asrRaises = false) (hu : truthyStr env.audio_url = true)
    (ht : env.local_asr_text = some t) :
    (t.length < 50 →
      tryAsr env = none ∧
      ∀ bvid cid title, (fetch_content env bvid cid title).source = .basic_info) ∧
    (50 ≤ t.length → tryAsr env = some t) := by
  constructor
  · intro hlt
    have hn : tryAsr env = none := by
      unfold tryAsr; simp [hr, hu, ht, hlt]
    exact ⟨hn, fun bvid cid title =>
      fetch_content_basic_of_tryAsr_none env bvid cid title hn⟩
  · intro hge
    unfold tryAsr
    simp [hr, hu, ht, Nat.not_lt.mpr hge]

/-- Witness for C6 at the 49/50 boundary. -/
theorem tryAsr_length_threshold_witness :
    tryAsr fenv49 = none ∧
    (fetch_content fenv49 "B" (some 1) (some "T")).source = .basic_info ∧
    tryAsr fenv50 = some (String.mk (List.replicate 50 'x')) := by
  refine ⟨?_, ?_, ?_⟩
  · exact ((tryAsr_length_threshold fenv49 _ rfl (by decide) rfl).1 (by decide)).1
  · exact ((tryAsr_length_threshold fenv49 _ rfl (by decide) rfl).1 (by decide)).2
      "B" (some 1) (some "T")
  · exact (tryAsr_length_threshold fenv50 _ rfl (by decide) rfl).2 (by decide)

/-- The shared tail of `fetch_content` only produces the two reachable
tiers. -/
lemma fetchRest_source (env : FetchEnv) (bvid t : String)
    (vi : Option VideoInfoR) :
    (fetchRest env bvid t vi).source = .asr ∨
      (fetchRest env bvid t vi).source = .basic_info := by
  unfold fetchRest
  by_cases ha : truthyStr (tryAsr env) = true
  · simp [ha]
  · simp [Bool.eq_false_iff.mpr ha]

/-- **C7**: `fetch_content` always returns a well-formed result tagged
`asr` or `basic_info` and never raises; failed metadata resolution yields
the error-placeholder basic result; an exception inside the ASR tier is
caught and falls back to the `basic_info` tier. -/
theorem fetch_content_total (env : FetchEnv) (bvid : String)
    (cid : Option Nat) (title : Option String) :
    ((fetch_content env bvid cid title).source = .asr ∨
      (fetch_content env bvid cid title).source = .basic_info) ∧
    (needInfo cid title = true → env.video_info = none →
      fetch_content env bvid cid title =
        ⟨bvid, strOr title "未知标题", "无法获取视频信息", .basic_info, none⟩) ∧
    (env.asrRaises = true →
      (fetch_content env bvid cid title).source = .basic_info) := by
  refine ⟨?_, ?_, ?_⟩
  · unfold fetch_content
    by_cases hn : needInfo cid title = true
    · simp only [hn, if_true]
      cases hv : env.video_info with
      | none => simp
      | some vi => exact fetchRest_source env bvid _ (some vi)
    · simp only [hn]
      simp only [Bool.false_eq_true, if_false]
      exact fetchRest_source env bvid _ none
  · intro hn hv
    unfold fetch_content
    simp [hn, hv]
  · intro hraise
    apply fetch_content_basic_of_tryAsr_none
    unfold tryAsr
    simp [hraise]

/-- Witness for C7 on a metadata-resolution failure with the ASR tier
raising. -/
theorem fetch_content_total_witness :
    (fetch_content { asrRaises := true } "B" none none).source = .basic_info ∧
    fetch_content { asrRaises := true } "B" none none =
      ⟨"B", "未知标题", "无法获取视频信息", .basic_info, none⟩ := by
  refine ⟨(fetch_content_total { asrRaises := true } "B" none none).2.2 rfl,
          (fetch_content_total { asrRaises := true } "B" none none).2.1 rfl rfl⟩

/-- The batch loop equals its enumerated per-item description, for any
starting index. -/
lemma batchGo_eq (env : BatchEnv) (total : Nat) (videos : List BatchVideo)
    (i : Nat) :
    batchGo env total i videos =
      (((List.enumFrom i videos).filter (fun p => truthyStr p.2.bvid)).map
          (fun p =>
            match env.fetch p.1 with
            | .ok c => c
            | .error e => errResult (p.2.bvid.getD "") p.2.title e),
        ((List.enumFrom i videos).filter (fun p => truthyStr p.2.bvid)).flatMap
          (fun p =>
            match env.fetch p.1 with
            | .ok _ => [.progress (p.1 + 1) total p.2.title, .sleep]
            | .error _ => [.sleep])) := by
  induction videos generalizing i with
  | nil => simp [batchGo]
  | cons v rest ih =>
    by_cases hb : truthyStr v.bvid = true
    · cases hf : env.fetch i with
      | ok c => simp [batchGo, List.enumFrom, hb, hf, ih (i + 1)]
      | error e => simp [batchGo, List.enumFrom, hb, hf, ih (i + 1)]
    · simp [batchGo, List.enumFrom, hb, ih (i + 1)]

/-- **C8**: the batch fetch processes exactly the bvid-carrying items, in
input order: a successful item contributes its fetched result followed by
a `(index+1, total, title)` progress callback, a raising item contributes
the error-tagged `basic_info` substitute (and no callback) instead of
propagating, and every processed item is followed by the fixed rate-limit
sleep. -/
theorem fetch_all_videos_content_spec (env : BatchEnv)
    (videos : List BatchVideo) :
    fetch_all_videos_content env videos =
      (((videos.enum.filter (fun p => truthyStr p.2.bvid)).map (fun p =>
          match env.fetch p.1 with
          | .ok c => c
          | .error e => errResult (p.2.bvid.getD "") p.2.title e)),
       ((videos.enum.filter (fun p => truthyStr p.2.bvid)).flatMap (fun p =>
          match env.fetch p.1 with
          | .ok _ => [.progress (p.1 + 1) videos.length p.2.title, .sleep]
          | .error _ => [.sleep]))) := by
  unfold fetch_all_videos_content
  rw [batchGo_eq]
  rfl

/-- **C9** (code bug): when the download succeeds but the audio
preparation (transcoding) fails, `_recognize_local_file` returns before
its `try`/`finally`, so the downloaded temp file survives the attempt;
on the path where preparation succeeds, both artifacts are deleted. -/
theorem tryAsrWithLocalAudio_leak :
    tryAsrWithLocalAudio asrEnvLeak [] "BV1" (some 3) =
      (none, ["data/asr_tmp/BV1_3_7.m4s"]) ∧
    (tryAsrWithLocalAudio
        { asrEnvLeak with prepared := some "data/asr_tmp/BV1_3_7.pcm",
                          sentences := ["你好"] } [] "BV1" (some 3)).2 = [] := by
  refine ⟨by decide, by decide⟩

/-- **C4**: when a previously stored member `b` of folder `f` is absent
from the current remote membership, its membership row for `f` is
dropped; its indexed chunks are deleted exactly when no other folder
still holds a membership row for `b`, and kept otherwise. -/
theorem syncFolder_removed_refcount (env : SyncEnv) (s : DBState)
    (sid : String) (fid : Nat) (excl : List String) (f : FavoriteFolder)
    (b : String)
    (h_na : ¬ anomalousListing env)
    (hf : findFolder s sid fid = some f)
    (hmem : hasRow s f.id b = true)
    (hcur : ¬ b ∈ (buildVideoMap excl env.videos).map (·.1)) :
    hasRow (syncFolder env s sid fid excl).2 f.id b = false ∧
    (otherCount s f.id b ≠ 0 →
      chunkCount (syncFolder env s sid fid excl).2 b = chunkCount s b) ∧
    (otherCount s f.id b = 0 →
      chunkCount (syncFolder env s sid fid excl).2 b = 0) := by
  have hsync : syncFolder env s sid fid excl = syncBody env s sid fid excl := by
    unfold syncFolder
    rw [if_neg h_na]
  set vm := buildVideoMap excl env.videos with hvm
  set P := getOrCreateFolder s sid fid (env.info.getD {}).title vm.length
    with hP
  set existing := existingBvids P.2 P.1.id with hex
  set addedL := (vm.map (·.1)).filter (fun c => !(existing.contains c))
    with hadd
  set removedL := existing.filter (fun c => !((vm.map (·.1)).contains c))
    with hrem
  set s2 := upsertAll vm P.2 with hs2
  set targets := addedL ++ updateCandidates s2 (vm.map (·.1)) existing
    with htg
  set s3 := runTargets env P.1.id vm s2 targets with hs3
  set s4 := removePhase P.1.id removedL s3 with hs4
  set s5 := setLastSync s4 P.1.id env.now with hs5
  have hstate : (syncFolder env s sid fid excl).2 = s5 := by
    rw [hsync, syncBody_eq]
  have hid : P.1.id = f.id :=
    getOrCreateFolder_fst_id_of_found s sid fid _ _ f hf
  have h1fv : P.2.favorite_videos = s.favorite_videos :=
    getOrCreateFolder_favorite_videos s sid fid _ _
  have h1ck : P.2.chunks = s.chunks := getOrCreateFolder_chunks s sid fid _ _
  have hbex : b ∈ existing := by
    rw [hex, mem_existingBvids, hid, hasRow_congr s P.2 h1fv]
    exact hmem
  have hbrem : b ∈ removedL := by
    rw [hrem]
    refine List.mem_filter.mpr ⟨hbex, ?_⟩
    simp [hcur]
  have hbt : b ∉ targets := by
    rw [htg]
    intro hmem'
    rcases List.mem_append.mp hmem' with h | h
    · rw [hadd] at h
      exact hcur (List.mem_filter.mp h).1
    · exact hcur (mem_updateCandidates s2 _ existing b h)
  have hcks3 : chunkCount s3 b = chunkCount s b := by
    rw [hs3, runTargets_chunkCount_not_mem env P.1.id vm targets s2 b hbt,
      hs2, chunkCount_upsertAll, chunkCount_congr s P.2 h1ck]
  have hocs3 : otherCount s3 P.1.id b = otherCount s P.1.id b := by
    obtain ⟨L, hL, hLp⟩ :=
      runTargets_favorite_videos_append env P.1.id vm targets s2
    rw [hs3, otherCount_append_rows s2 L P.1.id b
        (fun r hr => (hLp r hr).1) _ hL,
      hs2, otherCount_congr P.2 _ (upsertAll_favorite_videos vm P.2),
      otherCount_congr s P.2 h1fv]
  have hrow4 : hasRow s4 P.1.id b = false := by
    rw [Bool.eq_false_iff]
    intro habs
    rw [hs4] at habs
    exact ((removePhase_hasRow_iff P.1.id removedL s3 b).mp habs).2 hbrem
  have hck4 : chunkCount s4 b =
      (if otherCount s P.1.id b = 0 then 0 else chunkCount s b) := by
    rw [hs4, removePhase_chunkCount]
    by_cases ho : otherCount s3 P.1.id b = 0
    · rw [if_pos ⟨hbrem, ho⟩, if_pos (hocs3 ▸ ho)]
    · rw [if_neg (fun hc => ho hc.2), if_neg (fun hc => ho (hocs3 ▸ hc)),
        hcks3]
  have hrow5 : hasRow s5 P.1.id b = false := by
    rw [hs5, hasRow_congr s4 _ (setLastSync_favorite_videos s4 P.1.id env.now)]
    exact hrow4
  have hck5 : chunkCount s5 b =
      (if otherCount s P.1.id b = 0 then 0 else chunkCount s b) := by
    rw [hs5, chunkCount_congr s4 _ (setLastSync_chunks s4 P.1.id env.now)]
    exact hck4
  rw [hstate, ← hid]
  refine ⟨hrow5, ?_, ?_⟩
  · intro ho
    rw [hck5, if_neg (hid ▸ ho)]
  · intro ho
    rw [hck5, if_pos (hid ▸ ho)]

/-- Witness for C4: removing "A" from folder 1 drops its membership row
but keeps its chunks, because folder 2 still references it. -/
theorem syncFolder_removed_refcount_witness :
    hasRow (syncFolder envShared dbShared "s" 9 []).2 folderShared.id "A"
      = false ∧
    chunkCount (syncFolder envShared dbShared "s" 9 []).2 "A" =
      chunkCount dbShared "A" := by
  have h := syncFolder_removed_refcount envShared dbShared "s" 9 []
    folderShared "A" (by decide) (by decide) (by decide) (by decide)
  exact ⟨h.1, h.2.1 (by decide)⟩

/-- **C3** (amended): a transcription-tier cache entry whose stripped text
is sufficient (≥ 50 characters) survives a full sync unchanged — both the
stripped text and the `asr` source tag are preserved, so its source rank
never decreases.  (The companion counterexample shows the rank *can*
decrease when the stored transcription text is under 50 characters.) -/
theorem syncFolder_good_asr_preserved (env : SyncEnv) (s : DBState)
    (sid : String) (fid : Nat) (excl : List String) (b : String)
    (hsrc : oldSourceOf (findCache s b) = some "asr")
    (hlen : 50 ≤ (oldContentOf (findCache s b)).length) :
    cacheView (syncFolder env s sid fid excl).2 b = cacheView s b ∧
    oldSourceOf (findCache (syncFolder env s sid fid excl).2 b) =
      some "asr" := by
  have hmain : cacheView (syncFolder env s sid fid excl).2 b =
      cacheView s b := by
    unfold syncFolder
    split
    · rfl
    · rw [syncBody_eq]
      dsimp only
      set vm := buildVideoMap excl env.videos with hvm
      set P := getOrCreateFolder s sid fid (env.info.getD {}).title vm.length
        with hP
      set existing := existingBvids P.2 P.1.id with hex
      set s2 := upsertAll vm P.2 with hs2
      have hv2 : cacheView s2 b = cacheView s b := by
        rw [hs2, cacheView_upsertAll]
        exact cacheView_congr s P.2 (getOrCreateFolder_video_cache s sid fid _ _) b
      have hsrc2 : oldSourceOf (findCache s2 b) = some "asr" := by
        have h2 := congrArg Prod.snd hv2
        unfold cacheView at h2
        dsimp only at h2
        rw [h2]
        exact hsrc
      have hlen2 : 50 ≤ (oldContentOf (findCache s2 b)).length := by
        have h1 := congrArg Prod.fst hv2
        unfold cacheView at h1
        dsimp only at h1
        rw [h1]
        exact hlen
      rw [cacheView_congr _ _ (setLastSync_video_cache _ P.1.id env.now),
        cacheView_congr _ _ (removePhase_video_cache P.1.id _ _),
        runTargets_cacheView_good_asr env P.1.id vm _ s2 b hsrc2 hlen2]
      exact hv2
  refine ⟨hmain, ?_⟩
  have h2 := congrArg Prod.snd hmain
  unfold cacheView at h2
  dsimp only at h2
  rw [h2]
  exact hsrc

/-- Witness for the amended C3 on a concrete good-ASR cache entry. -/
theorem syncFolder_good_asr_preserved_witness :
    cacheView (syncFolder envGoodAsr dbGoodAsr "s" 9 []).2 "A" =
      cacheView dbGoodAsr "A" ∧
    oldSourceOf (findCache (syncFolder envGoodAsr dbGoodAsr "s" 9 []).2 "A") =
      some "asr" :=
  syncFolder_good_asr_preserved envGoodAsr dbGoodAsr "s" 9 [] "A"
    (by decide) (by decide)

/-- **C10**: after a non-anomalous sync commits, the `indexed` field of the
returned result equals the number of distinct bvids holding a membership
row for this folder in the final database; and because it counts
membership rows rather than chunks actually present in the vector store,
it is unchanged under any replacement of the vector-add success predicate
(`addOk`), i.e. unaffected by vector-add failures. -/
theorem syncFolder_indexed_is_membership_count (env : SyncEnv) (s : DBState)
    (sid : String) (fid : Nat) (excl : List String) (g : String → Bool)
    (h_na : ¬ anomalousListing env) :
    (syncFolder env s sid fid excl).1.indexed =
      (folderBvids (syncFolder env s sid fid excl).2
        (getOrCreateFolder s sid fid (env.info.getD {}).title
          (buildVideoMap excl env.videos).length).1.id).dedup.length ∧
    (syncFolder { env with addOk := g } s sid fid excl).1.indexed =
      (syncFolder env s sid fid excl).1.indexed := by
  have h_na' : ¬ anomalousListing { env with addOk := g } := h_na
  have hsync : syncFolder env s sid fid excl = syncBody env s sid fid excl := by
    unfold syncFolder
    rw [if_neg h_na]
  have hsync' : syncFolder { env with addOk := g } s sid fid excl =
      syncBody { env with addOk := g } s sid fid excl := by
    unfold syncFolder
    rw [if_neg h_na']
  refine ⟨?_, ?_⟩
  · rw [hsync]
    rfl
  · rw [hsync, hsync', syncBody_eq, syncBody_eq]
    dsimp only
    set vm := buildVideoMap excl env.videos with hvm
    set P := getOrCreateFolder s sid fid (env.info.getD {}).title vm.length
      with hP
    set existing := existingBvids P.2 P.1.id with hex
    set addedL := (vm.map (·.1)).filter (fun c => !(existing.contains c))
      with hadd
    set removedL := existing.filter (fun c => !((vm.map (·.1)).contains c))
      with hrem
    set s2 := upsertAll vm P.2 with hs2
    set targets := addedL ++ updateCandidates s2 (vm.map (·.1)) existing
      with htg
    have hrt := runTargets_stripChunks_addOk env g P.1.id vm targets s2 s2 rfl
    have h5 := stripChunks_setLastSync P.1.id env.now _ _
      (stripChunks_removePhase P.1.id removedL _ _ hrt)
    rw [folderBvids_congr _ _
      (stripChunks_inj_favorite_videos _ _ h5).symm P.1.id]

/-- Witness for C10 on the shared-folder scenario, with an always-failing
vector add on the perturbed run. -/
theorem syncFolder_indexed_is_membership_count_witness :
    ¬ anomalousListing envShared ∧
    ((syncFolder envShared dbShared "s" 9 []).1.indexed =
      (folderBvids (syncFolder envShared dbShared "s" 9 []).2
        (getOrCreateFolder dbShared "s" 9 ((envShared.info.getD {}).title)
          (buildVideoMap [] envShared.videos).length).1.id).dedup.length ∧
    (syncFolder { envShared with addOk := fun _ => false }
        dbShared "s" 9 []).1.indexed =
      (syncFolder envShared dbShared "s" 9 []).1.indexed) :=
  ⟨by decide, syncFolder_indexed_is_membership_count envShared dbShared
    "s" 9 [] (fun _ => false) (by decide)⟩

/-- **C5**: running the sync twice in succession with the same environment
(no change in the remote member list) yields `added = 0` and `removed = 0`
on the second run, and every video's indexed chunk count after the second
run equals its count after the first run. -/
theorem syncFolder_idempotent (env : SyncEnv) (s : DBState) (sid : String)
    (fid : Nat) (excl : List String) :
    (syncFolder env (syncFolder env s sid fid excl).2 sid fid excl).1.added
        = 0 ∧
    (syncFolder env (syncFolder env s sid fid excl).2 sid fid excl).1.removed
        = 0 ∧
    ∀ b, chunkCount
        (syncFolder env (syncFolder env s sid fid excl).2 sid fid excl).2 b =
      chunkCount (syncFolder env s sid fid excl).2 b := by
  by_cases hna : anomalousListing env
  · have hfix : ∀ t : DBState, syncFolder env t sid fid excl =
        ({ folder_id := fid,
           total := (env.info.getD {}).media_count.getD env.videos.length,
           added := 0, removed := 0,
           indexed := (t.favorite_videos.filter
             (fun r => r.folder_id == fid)).length,
           message := "本次同步异常：空列表，已跳过",
           last_sync_at := some env.now }, t) := by
      intro t
      unfold syncFolder
      rw [if_pos hna]
    rw [hfix ((syncFolder env s sid fid excl).2)]
    exact ⟨rfl, rfl, fun b => rfl⟩
  · have hsync : ∀ t : DBState, syncFolder env t sid fid excl =
        syncBody env t sid fid excl := by
      intro t
      unfold syncFolder
      rw [if_neg hna]
    rw [hsync s, hsync ((syncBody env s sid fid excl).2)]
    obtain ⟨hrow5, ⟨F5, hF5, hF5id⟩, hpost⟩ :=
      syncBody_second_run_basis env s sid fid excl
    set T := (syncBody env s sid fid excl).2 with hT
    set vm := buildVideoMap excl env.videos with hvm
    set Fid := (getOrCreateFolder s sid fid (env.info.getD {}).title
      vm.length).1.id with hFid
    set P' := getOrCreateFolder T sid fid (env.info.getD {}).title vm.length
      with hP'
    set existing' := existingBvids P'.2 P'.1.id with hex'
    set addedL' := (vm.map (·.1)).filter (fun c => !(existing'.contains c))
      with hadd'
    set removedL' := existing'.filter (fun c => !((vm.map (·.1)).contains c))
      with hrem'
    set s2' := upsertAll vm P'.2 with hs2'
    set targets' := addedL' ++ updateCandidates s2' (vm.map (·.1)) existing'
      with htg'
    set s3' := runTargets env P'.1.id vm s2' targets' with hs3'
    set s4' := removePhase P'.1.id removedL' s3' with hs4'
    set s5' := setLastSync s4' P'.1.id env.now with hs5'
    have hstate : syncBody env T sid fid excl =
        ({ folder_id := fid, total := vm.length, added := addedL'.length,
           removed := removedL'.length,
           indexed := (folderBvids s5' P'.1.id).dedup.length,
           message := "同步完成", last_sync_at := some env.now }, s5') := by
      rw [syncBody_eq]
    rw [hstate]
    have hid' : P'.1.id = Fid := by
      rw [hP', getOrCreateFolder_fst_id_of_found T sid fid _ _ F5 hF5]
      exact hF5id
    have hfv' : P'.2.favorite_videos = T.favorite_videos := by
      rw [hP']
      exact getOrCreateFolder_favorite_videos T sid fid _ _
    have hmem_ex' : ∀ b, b ∈ existing' ↔ b ∈ vm.map (·.1) := by
      intro b
      rw [hex', mem_existingBvids, hid', hasRow_congr T P'.2 hfv']
      exact hrow5 b
    have hadd_nil : addedL' = [] := by
      rw [hadd', List.eq_nil_iff_forall_not_mem]
      intro b hb
      obtain ⟨hbc, hbn⟩ := List.mem_filter.mp hb
      rw [contains_true_of_mem existing' b ((hmem_ex' b).mpr hbc)] at hbn
      exact absurd hbn (by decide)
    have hrem_nil : removedL' = [] := by
      rw [hrem', List.eq_nil_iff_forall_not_mem]
      intro b hb
      obtain ⟨hbe, hbn⟩ := List.mem_filter.mp hb
      rw [contains_true_of_mem _ b ((hmem_ex' b).mp hbe)] at hbn
      exact absurd hbn (by decide)
    have hpfix : ∀ b ∈ vm.map (·.1), postSync env P'.1.id s2' b := by
      intro b hb
      rw [hid']
      refine postSync_of_views env Fid T s2' b ?_ ?_ ?_ (hpost b hb)
      · rw [hs2', cacheView_upsertAll vm P'.2 b,
          cacheView_congr T P'.2 (by
            rw [hP']
            exact getOrCreateFolder_video_cache T sid fid _ _) b]
      · rw [hs2', hasRow_upsertAll vm P'.2 Fid b,
          hasRow_congr T P'.2 hfv' Fid b]
      · rw [hs2', chunkCount_upsertAll vm P'.2 b,
          chunkCount_congr T P'.2 (by
            rw [hP']
            exact getOrCreateFolder_chunks T sid fid _ _) b]
    have htg_sub : ∀ b ∈ targets', b ∈ vm.map (·.1) := by
      intro b hb
      rw [htg'] at hb
      rcases List.mem_append.mp hb with h | h
      · rw [hadd'] at h
        exact (List.mem_filter.mp h).1
      · exact mem_updateCandidates s2' _ existing' b h
    have hstable := runTargets_stable env P'.1.id vm targets' s2'
      (fun b hb => hpfix b (htg_sub b hb))
    have hrp_nil : removePhase P'.1.id removedL' s3' = s3' := by
      rw [hrem_nil]
      rfl
    have hck5' : ∀ b, chunkCount s5' b = chunkCount T b := by
      intro b
      rw [hs5', chunkCount_congr s4' _ (setLastSync_chunks s4' P'.1.id env.now) b,
        hs4', hrp_nil, hs3', hstable.2 b, hs2', chunkCount_upsertAll vm P'.2 b,
        chunkCount_congr T P'.2 (by
          rw [hP']
          exact getOrCreateFolder_chunks T sid fid _ _) b]
    refine ⟨?_, ?_, hck5'⟩
    · show addedL'.length = 0
      rw [hadd_nil]
      rfl
    · show removedL'.length = 0
      rw [hrem_nil]
      rfl

end BilibiliRag
